import Mathlib

/-!
Verification development for the government-contract search pipeline
(`mainv8.py`): a shallow embedding of the relevance classification and
extraction pipeline — domain/URL classification, document-type taxonomy,
location inference, relevance scoring, content analysis, rescoring,
deduplication and diversity re-ranking — together with theorems settling
the specification's testable properties.

Text is modelled as `List Char` (Python `str`).  Python `re` searches are
modelled by a small backtracking engine (`RE`, `reMatch`, `reSearch`,
`findIterAux`) whose outcome ordering mirrors Python's leftmost, greedy,
priority-ordered alternation semantics; all character classes appearing in
the source are literal character sets, so the engine only needs class
star/plus.  Floating point scores are modelled exactly as rationals: every
constant in the source is a multiple of 0.5, so IEEE arithmetic on them is
exact and agrees with `ℚ`.
-/

set_option maxHeartbeats 1000000

attribute [local semireducible] Rat.add Rat.mul Rat.inv Rat.sub

/-- Shorthand: the character list of a string literal. -/
def strL (s : String) : List Char := s.data

/-- ASCII lower-casing of one character (Python `str.lower` on the ASCII
inputs handled by the pipeline). -/
def lowerChar (c : Char) : Char := Char.toLower c

/-- Python `str.lower()`. -/
def lowerL (s : List Char) : List Char := s.map lowerChar

/-- Python `str.upper()` for the ASCII range (used on 2-letter state codes). -/
def upperL (s : List Char) : List Char := s.map Char.toUpper

/-- Python `str.title()`: an alphabetic character is upper-cased when the
previous character is not alphabetic, and lower-cased otherwise. -/
def pyTitleAux : Bool → List Char → List Char
  | _, [] => []
  | prevAlpha, c :: rest =>
    (if c.isAlpha then (if prevAlpha then lowerChar c else c.toUpper) else c)
      :: pyTitleAux c.isAlpha rest

/-- Python `str.title()`. -/
def pyTitle (s : List Char) : List Char := pyTitleAux false s

/-- Whether `needle` occurs as a contiguous sublist of `hay`. -/
def isSubL : List Char → List Char → Bool
  | needle, [] => needle.isEmpty
  | needle, c :: rest => needle.isPrefixOf (c :: rest) || isSubL needle rest

/-- Substring containment, Python `needle in hay`. -/
def containsL (hay needle : List Char) : Bool := isSubL needle hay

/- ## A small regular-expression engine

Mirrors the fragment of Python `re` used by the source: literals,
alternation (priority order), concatenation, greedy `?`, and greedy `*`/`+`
over literal character classes.  `reMatch` returns every way of matching a
prefix of the input, in backtracking priority order, so the head of the
list is the match Python's engine picks. -/

/-- Regular expressions, as used by the source's patterns.  `cls`, `star`
and `plus` take the character class as an explicit character list. -/
inductive RE where
  | eps : RE
  | lit : List Char → RE
  | cls : List Char → RE
  | alt : RE → RE → RE
  | seq : RE → RE → RE
  | opt : RE → RE
  | star : List Char → RE
  | plus : List Char → RE
  | group : Nat → RE → RE
deriving Repr

/-- Length of the longest prefix of `s` made of characters in class `p`. -/
def runLen (p : List Char) : List Char → Nat
  | [] => 0
  | c :: rest => if c ∈ p then runLen p rest + 1 else 0

/-- All ways of matching `r` against a prefix of the input, in backtracking
priority order.  Each outcome is the list of (group index, captured text)
pairs together with the remaining input. -/
def reMatch : RE → List Char → List (List (Nat × List Char) × List Char)
  | .eps, s => [([], s)]
  | .lit l, s => if l.isPrefixOf s then [([], s.drop l.length)] else []
  | .cls p, s =>
    match s with
    | [] => []
    | c :: rest => if c ∈ p then [([], rest)] else []
  | .alt r₁ r₂, s => reMatch r₁ s ++ reMatch r₂ s
  | .seq r₁ r₂, s =>
    (reMatch r₁ s).flatMap fun o₁ =>
      (reMatch r₂ o₁.2).map fun o₂ => (o₁.1 ++ o₂.1, o₂.2)
  | .opt r, s => reMatch r s ++ [([], s)]
  | .star p, s =>
    ((List.range (runLen p s + 1)).reverse).map fun j => ([], s.drop j)
  | .plus p, s =>
    (((List.range (runLen p s + 1)).reverse).filter (fun j => j ≠ 0)).map
      fun j => ([], s.drop j)
  | .group i r, s =>
    (reMatch r s).map fun o => (o.1 ++ [(i, s.take (s.length - o.2.length))], o.2)

/-- Python `re.search`: the leftmost match, trying every start position in
order; returns the captures and the input remaining after the match. -/
def reSearch (r : RE) : List Char → Option (List (Nat × List Char) × List Char)
  | [] =>
    match reMatch r [] with
    | o :: _ => some o
    | [] => none
  | c :: t =>
    match reMatch r (c :: t) with
    | o :: _ => some o
    | [] => reSearch r t

/-- Whether `re.search` finds a match. -/
def reTest (r : RE) (s : List Char) : Bool := (reSearch r s).isSome

/-- First capture of a given group index among a match's captures. -/
def groupOf (gs : List (Nat × List Char)) (i : Nat) : Option (List Char) :=
  (gs.find? fun g => g.1 == i).map Prod.snd

/-- Python `re.finditer`: non-overlapping matches left to right (advancing
one character after an empty match); fuelled by the input length. -/
def findIterAux (r : RE) : Nat → List Char → List (List (Nat × List Char))
  | 0, _ => []
  | fuel + 1, s =>
    match reSearch r s with
    | none => []
    | some (gs, rest) =>
      gs :: findIterAux r fuel (if rest.length < s.length then rest else rest.drop 1)

/-- All matches of `r` in `s` (their capture lists), Python `re.finditer`. -/
def findIter (r : RE) (s : List Char) : List (List (Nat × List Char)) :=
  findIterAux r (s.length + 1) s

/-- A regex that never matches. -/
def reFail : RE := .cls []

/-- Literal-string regex from a string literal. -/
def rlit (s : String) : RE := .lit s.data

/-- Priority-ordered alternation of a list of regexes. -/
def alts (rs : List RE) : RE := rs.foldr .alt reFail

/-- Sequencing of a list of regexes. -/
def seqs (rs : List RE) : RE := rs.foldr .seq .eps

/-- The class `\d`. -/
def clsDigit : List Char := strL "0123456789"

/-- The class `[\d,]`. -/
def clsDigitComma : List Char := strL "0123456789,"

/-- The class `[a-z]`. -/
def clsLower : List Char := strL "abcdefghijklmnopqrstuvwxyz"

/-- The class `\s` (ASCII whitespace as matched by Python `re`). -/
def clsWs : List Char := [' ', '\t', '\n', '\x0d', '\x0b', '\x0c']

/-- The class `[:\s]`. -/
def clsColonWs : List Char := ':' :: clsWs

/-- The class `[A-Za-z]`. -/
def clsAlpha : List Char :=
  strL "ABCDEFGHIJKLMNOPQRSTUVWXYZabcdefghijklmnopqrstuvwxyz"

/-- The two-character class holding a slash and a dash. -/
def clsSlashDash : List Char := ['/', '-']

/-- The class `[- ]`. -/
def clsDashSpace : List Char := ['-', ' ']

/- ## Configuration (`SearchConfig`)

Each Python configuration container becomes a list of literals in source
order.  `BLOCKED_DOMAINS` and `TRUSTED_DOMAINS` are Python sets; only
membership is ever observed except for the reported blocked suffix, whose
identity none of the verified claims depends on, so source order is used.
Regex configuration entries whose only regex feature is an optional
character (`s?`, `[-_]?`) are expanded into the equivalent finite list of
literal alternatives, since `re.search` of such a pattern is exactly
"some alternative is a substring". -/

namespace SearchConfig

def BLOCKED_DOMAINS : List (List Char) :=
  [strL "accela.com", strL "www.accela.com", strL "tyler.com", strL "tylertech.com",
   strL "civicplus.com", strL "granicus.com",
   strL "govbusinessreview.com", strL "govciooutlook.com", strL "g2.com", strL "capterra.com",
   strL "softwareadvice.com", strL "softwaresuggest.com", strL "gartner.com", strL "trustradius.com",
   strL "getapp.com", strL "peerspot.com", strL "sourceforge.net", strL "slashdot.org",
   strL "f6s.com", strL "toolsinfo.com", strL "design.toolsinfo.com", strL "saascounter.com",
   strL "3sgplus.com", strL "vision33.com", strL "contentarch.com", strL "sewcopy.com",
   strL "civicdata.com", strL "carahsoft.com",
   strL "catalogartifact.azureedge.net", strL "marketplace.microsoft.com",
   strL "aws.amazon.com", strL "azure.microsoft.com",
   strL "usermanual.wiki", strL "scribd.com",
   strL "prnewswire.com", strL "businesswire.com", strL "globenewswire.com",
   strL "prweb.com", strL "prbuzz.com",
   strL "bidnet.com", strL "www.bidnet.com", strL "bidnetdirect.com", strL "bonfirehub.com",
   strL "www.bonfirehub.com", strL "publicpurchase.com", strL "govwin.com", strL "bidsync.com",
   strL "planetbids.com", strL "bidexpress.com", strL "demandstar.com", strL "negometrix.com",
   strL "ionwave.net", strL "bidsandawards.com", strL "highergov.com", strL "bidbanana.thebidlab.com",
   strL "pdffiller.com", strL "documentcloud.org",
   strL "linkedin.com", strL "twitter.com", strL "facebook.com", strL "youtube.com",
   strL "wikipedia.org", strL "reddit.com"]

def TRUSTED_DOMAINS : List (List Char) :=
  [strL ".gov", strL ".us", strL ".state.", strL "civicweb", strL "legistar.com"]

/-- `GOOD_URL_PATTERNS`, with each `s?` regex expanded to its two literal
alternatives. -/
def GOOD_URL_PATTERNS : List (List Char) :=
  [strL "/document/", strL "/documents/", strL "/file/", strL "/files/",
   strL "/attachment/", strL "/attachments/", strL "/contract/", strL "/contracts/",
   strL "/purchasing/", strL "/procurement/", strL "/bid/", strL "/bids/",
   strL "/rfp/", strL "/agenda/",
   strL "/minutes/", strL "/resolution/", strL "/resolutions/",
   strL "/ordinance/", strL "/ordinances/", strL "documentcenter",
   strL "weblink", strL "edoc", strL "civicweb", strL "questys", strL "laserfiche",
   strL "/archive/", strL "agendacenter", strL "boardagenda", strL "boardpacket"]

/-- `USER_DOC_PATTERNS`, with each `[-_]?` regex expanded to its three
literal alternatives. -/
def USER_DOC_PATTERNS : List (List Char) :=
  [strL "userguide", strL "user-guide", strL "user_guide",
   strL "howto", strL "how-to", strL "how_to",
   strL "instructions", strL "tutorial",
   strL "helpdoc", strL "help-doc", strL "help_doc",
   strL "gettingstarted", strL "getting-started", strL "getting_started",
   strL "quickstart", strL "quick-start", strL "quick_start",
   strL "adminguide", strL "admin-guide", strL "admin_guide",
   strL "administratorguide", strL "administrator-guide", strL "administrator_guide",
   strL "scriptingguide", strL "scripting-guide", strL "scripting_guide",
   strL "planningguide", strL "planning-guide", strL "planning_guide",
   strL "systemplanning", strL "system-planning", strL "system_planning",
   strL "conceptsguide", strL "concepts-guide", strL "concepts_guide",
   strL "training", strL "glossary", strL "faq"]

def USER_DOC_TITLE_PATTERNS : List (List Char) :=
  [strL "user guide", strL "user\x27s guide", strL "how to", strL "instructions for",
   strL "submission guide", strL "submittal guide", strL "online permitting system",
   strL "getting started", strL "tutorial", strL "admin guide", strL "administrator guide",
   strL "scripting guide", strL "concepts guide", strL "gis administration",
   strL "system planning", strL "view and manage", strL "glossary", strL "faq"]

def HIGH_VALUE_TITLE_PATTERNS : List (List Char × ℚ) :=
  [(strL "order form", 5/2),
   (strL "renewal order form", 5/2),
   (strL "subscription services agreement", 2),
   (strL "master services agreement", 2),
   (strL "software license agreement", 2),
   (strL "license agreement", 3/2),
   (strL "pricing schedule", 2),
   (strL "fee schedule", 2),
   (strL "cost proposal", 3/2),
   (strL "price proposal", 3/2),
   (strL "cost exhibit", 2),
   (strL "pricing exhibit", 2),
   (strL "exhibit a", 1),
   (strL "exhibit b", 1)]

end SearchConfig

/- ## Domain and URL analysis -/

/-- The part of a URL following the first `"://"`. The spec guarantees every
URL handed to the pipeline starts with a scheme, so `urlparse` netloc
extraction reduces to this. -/
def afterScheme : List Char → Option (List Char)
  | [] => none
  | c :: rest =>
    if (strL "://").isPrefixOf (c :: rest) then some ((c :: rest).drop 3)
    else afterScheme rest

/-- `urlparse(url).netloc`: from after the scheme separator up to the first
path, query or fragment delimiter. -/
def netlocOf (url : List Char) : List Char :=
  match afterScheme url with
  | some rest => rest.takeWhile fun c => c ≠ '/' ∧ c ≠ '?' ∧ c ≠ '#'
  | none => []

/-- `get_domain`: the URL's netloc, lower-cased. -/
def get_domain (url : List Char) : List Char := lowerL (netlocOf url)

/-- `is_blocked_domain`: first configured blocked-domain substring found in
the domain, if any. -/
def is_blocked_domain (url : List Char) : Bool × List Char :=
  let domain := get_domain url
  match SearchConfig.BLOCKED_DOMAINS.find? (fun b => containsL domain b) with
  | some b => (true, b)
  | none => (false, [])

/-- `is_trusted_domain`: a trusted marker occurs in the domain or anywhere
in the lower-cased URL. -/
def is_trusted_domain (url : List Char) : Bool :=
  let domain := get_domain url
  let url_lower := lowerL url
  SearchConfig.TRUSTED_DOMAINS.any fun t => containsL domain t || containsL url_lower t

/-- `has_good_url_pattern`: some document-repository pattern occurs in the
lower-cased URL. -/
def has_good_url_pattern (url : List Char) : Bool :=
  let url_lower := lowerL url
  SearchConfig.GOOD_URL_PATTERNS.any fun p => containsL url_lower p

/-- `is_user_documentation`: a user-doc URL pattern occurs in the
lower-cased URL, or a user-doc title pattern occurs in the lower-cased
title. -/
def is_user_doc (url title : List Char) : Bool :=
  let url_lower := lowerL url
  let title_lower := lowerL title
  (SearchConfig.USER_DOC_PATTERNS.any fun p => containsL url_lower p) ||
    (SearchConfig.USER_DOC_TITLE_PATTERNS.any fun p => containsL title_lower p)

/-- `is_pdf_url`: `".pdf"` occurs in the lower-cased URL. -/
def is_pdf_url (url : List Char) : Bool := containsL (lowerL url) (strL ".pdf")

/- ## Document type classification (`DocumentType`) -/

/-- The metadata attached to each taxonomy type. -/
structure DocTypeInfo where
  priority : Nat
  pricing_likely : Bool
  description : String
deriving Repr, DecidableEq

namespace DocumentType

/-- The regex pattern `item \d+`. -/
def itemNumRE : RE := .seq (rlit "item ") (.plus clsDigit)

/-- Whether any pattern in a list matches the blob.  Literal patterns are
substring searches (as `re.search` of a literal is); `item \d+` is the one
genuine regex in the taxonomy and is tested with the engine. -/
def anyLit (pats : List (List Char)) (text : List Char) : Bool :=
  pats.any fun p => containsL text p

def orderFormInfo : DocTypeInfo := ⟨1, true, "Specific pricing and quantities"⟩
def contractInfo : DocTypeInfo := ⟨2, true, "Full contract terms with pricing"⟩
def pricingInfo : DocTypeInfo := ⟨3, true, "Detailed pricing breakdown"⟩
def staffReportInfo : DocTypeInfo := ⟨4, false, "Government summary - may reference pricing"⟩
def rfpInfo : DocTypeInfo := ⟨5, false, "Proposed/estimated pricing"⟩
def otherInfo : DocTypeInfo := ⟨6, false, "Unknown - needs review"⟩

/-- Inclusion patterns of `'Order Form'`. -/
def matchesOrderForm (text : List Char) : Bool :=
  anyLit [strL "order form", strL "renewal order", strL "purchase order"] text

/-- Exclusion patterns of `'Contract/Agreement'`. -/
def contractExcluded (text : List Char) : Bool :=
  reTest itemNumRE text ||
    anyLit [strL "agenda", strL "staff report", strL "memo"] text

/-- Inclusion patterns of `'Contract/Agreement'`. -/
def matchesContract (text : List Char) : Bool :=
  anyLit [strL "agreement", strL "contract", strL "master service"] text

/-- Inclusion patterns of `'Pricing Document'`. -/
def matchesPricing (text : List Char) : Bool :=
  anyLit [strL "pricing", strL "fee schedule", strL "cost exhibit",
          strL "cost proposal", strL "price list"] text

/-- Inclusion patterns of `'Staff Report/Memo'`. -/
def matchesStaffReport (text : List Char) : Bool :=
  anyLit [strL "staff report", strL "council report", strL "agenda report",
          strL "memo", strL "memorandum"] text ||
    reTest itemNumRE text ||
    anyLit [strL "board agenda", strL "council agenda"] text

/-- Inclusion patterns of `'RFP/Proposal'`. -/
def matchesRFP (text : List Char) : Bool :=
  anyLit [strL "rfp", strL "request for proposal", strL "bid",
          strL "solicitation", strL "proposal", strL "response"] text

/-- `DocumentType.classify`: iterate the taxonomy in priority (insertion)
order, skip a type whose exclusion patterns match, return the first type
whose inclusion patterns match, falling back to the terminal type. -/
def classify (url title : List Char) : String × DocTypeInfo :=
  let text := lowerL (url ++ ' ' :: title)
  if matchesOrderForm text then ("Order Form", orderFormInfo)
  else if !contractExcluded text && matchesContract text then
    ("Contract/Agreement", contractInfo)
  else if matchesPricing text then ("Pricing Document", pricingInfo)
  else if matchesStaffReport text then ("Staff Report/Memo", staffReportInfo)
  else if matchesRFP text then ("RFP/Proposal", rfpInfo)
  else ("Other Government Document", otherInfo)

end DocumentType

/- ## Location extraction (`extract_location`) -/

namespace LocationData

/-- The `states` table: full state name (lower case) to 2-letter code. -/
def states : List (List Char × List Char) :=
  [(strL "alabama", strL "AL"), (strL "alaska", strL "AK"), (strL "arizona", strL "AZ"),
   (strL "arkansas", strL "AR"), (strL "california", strL "CA"), (strL "colorado", strL "CO"),
   (strL "connecticut", strL "CT"), (strL "delaware", strL "DE"), (strL "florida", strL "FL"),
   (strL "georgia", strL "GA"), (strL "hawaii", strL "HI"), (strL "idaho", strL "ID"),
   (strL "illinois", strL "IL"), (strL "indiana", strL "IN"), (strL "iowa", strL "IA"),
   (strL "kansas", strL "KS"), (strL "kentucky", strL "KY"), (strL "louisiana", strL "LA"),
   (strL "maine", strL "ME"), (strL "maryland", strL "MD"), (strL "massachusetts", strL "MA"),
   (strL "michigan", strL "MI"), (strL "minnesota", strL "MN"), (strL "mississippi", strL "MS"),
   (strL "missouri", strL "MO"), (strL "montana", strL "MT"), (strL "nebraska", strL "NE"),
   (strL "nevada", strL "NV"), (strL "new hampshire", strL "NH"), (strL "new jersey", strL "NJ"),
   (strL "new mexico", strL "NM"), (strL "new york", strL "NY"), (strL "north carolina", strL "NC"),
   (strL "north dakota", strL "ND"), (strL "ohio", strL "OH"), (strL "oklahoma", strL "OK"),
   (strL "oregon", strL "OR"), (strL "pennsylvania", strL "PA"), (strL "rhode island", strL "RI"),
   (strL "south carolina", strL "SC"), (strL "south dakota", strL "SD"),
   (strL "tennessee", strL "TN"), (strL "texas", strL "TX"), (strL "utah", strL "UT"),
   (strL "vermont", strL "VT"), (strL "virginia", strL "VA"), (strL "washington", strL "WA"),
   (strL "west virginia", strL "WV"), (strL "wisconsin", strL "WI"), (strL "wyoming", strL "WY"),
   (strL "district of columbia", strL "DC")]

/-- Lookup of a (lower-case) full state name in the `states` table. -/
def stateAbbrevOf (name : List Char) : Option (List Char) :=
  (states.find? fun kv => kv.1 == name).map Prod.snd

/-- `abbrev_to_full`: maps a 2-letter code to the title-cased full name. -/
def fullNameOf (ab : List Char) : Option (List Char) :=
  (states.find? fun kv => kv.2 == ab).map fun kv => pyTitle kv.1

/-- The `known_cities` gazetteer, in source (insertion) order. -/
def known_cities : List (List Char × List Char) :=
  [(strL "anaheim", strL "CA"), (strL "berkeley", strL "CA"), (strL "san diego", strL "CA"),
   (strL "san francisco", strL "CA"), (strL "los angeles", strL "CA"), (strL "oakland", strL "CA"),
   (strL "sacramento", strL "CA"), (strL "fresno", strL "CA"),
   (strL "galveston", strL "TX"), (strL "houston", strL "TX"), (strL "dallas", strL "TX"),
   (strL "austin", strL "TX"),
   (strL "tacoma", strL "WA"), (strL "seattle", strL "WA"), (strL "spokane", strL "WA"),
   (strL "bellevue", strL "WA"),
   (strL "hillsboro", strL "OR"), (strL "portland", strL "OR"), (strL "salem", strL "OR"),
   (strL "eugene", strL "OR"),
   (strL "denver", strL "CO"), (strL "phoenix", strL "AZ"), (strL "goodyear", strL "AZ"),
   (strL "charlotte", strL "NC"), (strL "tampa", strL "FL"), (strL "miami", strL "FL"),
   (strL "brevard", strL "FL"),
   (strL "papillion", strL "NE"), (strL "omaha", strL "NE"), (strL "andover", strL "KS"),
   (strL "moreno valley", strL "CA"), (strL "moval", strL "CA"), (strL "merced", strL "CA"),
   (strL "washoe", strL "NV"), (strL "kern", strL "CA"), (strL "evanston", strL "IL"),
   (strL "mulberry", strL "FL")]

/-- The regex `([a-z]+)-([a-z]+)\.(?:civicweb|legistar)`. -/
def cityDashStateRE : RE :=
  seqs [.group 1 (.plus clsLower), rlit "-", .group 2 (.plus clsLower), rlit ".",
        .alt (rlit "civicweb") (rlit "legistar")]

/-- The 2-letter state codes of the `citySTATE.gov` regex, in source order. -/
def govStateCodes : List String :=
  ["ca", "tx", "ny", "fl", "wa", "or", "az", "co", "il", "oh", "pa", "ga", "nc",
   "nj", "va", "ma", "mi", "md", "mn", "mo", "wi", "tn", "in", "ks", "ne", "nv"]

/-- The regex `(?:www\.)?([a-z]+)(ca|tx|...|nv)\.gov`. -/
def cityStateGovRE : RE :=
  seqs [.opt (rlit "www."), .group 1 (.plus clsLower),
        .group 2 (alts (govStateCodes.map rlit)), rlit ".gov"]

/-- The regex `(?:www\.)?([a-z]+)\.([a-z]{2})\.us`. -/
def cityStateUsRE : RE :=
  seqs [.opt (rlit "www."), .group 1 (.plus clsLower), rlit ".",
        .group 2 (.seq (.cls clsLower) (.cls clsLower)), rlit ".us"]

/-- The regex `co\.([a-z]+)\.([a-z]{2})\.us`. -/
def countyUsRE : RE :=
  seqs [rlit "co.", .group 1 (.plus clsLower), rlit ".",
        .group 2 (.seq (.cls clsLower) (.cls clsLower)), rlit ".us"]

/-- The regex `(?:state|das|dgs|doa)\.([a-z]{2})\.(?:us|gov)`. -/
def stateLevelRE : RE :=
  seqs [alts [rlit "state", rlit "das", rlit "dgs", rlit "doa"], rlit ".",
        .group 1 (.seq (.cls clsLower) (.cls clsLower)), rlit ".",
        alts [rlit "us", rlit "gov"]]

end LocationData

/-- The mutable locals of `extract_location`'s cascade. -/
structure LocParts where
  city : Option (List Char)
  county : Option (List Char)
  stateAb : Option (List Char)
  stateLevel : Bool
deriving Repr, DecidableEq

/-- Both captures of a two-group regex search, when the search succeeds. -/
def twoGroups (r : RE) (s : List Char) : Option (List Char × List Char) :=
  match reSearch r s with
  | none => none
  | some (gs, _) =>
    match groupOf gs 1, groupOf gs 2 with
    | some g1, some g2 => some (g1, g2)
    | _, _ => none

/-- Cascade step 1: domain pattern `city-state.(civicweb|legistar)`, taken
only when the state token is a recognized full state name. -/
def locStep1 (domain : List Char) (p : LocParts) : LocParts :=
  match twoGroups LocationData.cityDashStateRE domain with
  | some (g1, g2) =>
    match LocationData.stateAbbrevOf g2 with
    | some ab => { p with city := some (pyTitle g1), stateAb := some ab }
    | none => p
  | none => p

/-- Cascade step 2: domain pattern `citySTATE.gov` (only if no city yet). -/
def locStep2 (domain : List Char) (p : LocParts) : LocParts :=
  if p.city.isSome then p
  else
    match twoGroups LocationData.cityStateGovRE domain with
    | some (g1, g2) => { p with city := some (pyTitle g1), stateAb := some (upperL g2) }
    | none => p

/-- Cascade step 3: domain pattern `city.ST.us` (only if no city yet). -/
def locStep3 (domain : List Char) (p : LocParts) : LocParts :=
  if p.city.isSome then p
  else
    match twoGroups LocationData.cityStateUsRE domain with
    | some (g1, g2) => { p with city := some (pyTitle g1), stateAb := some (upperL g2) }
    | none => p

/-- Cascade step 4: domain pattern `co.COUNTY.ST.us` (only if no city yet). -/
def locStep4 (domain : List Char) (p : LocParts) : LocParts :=
  if p.city.isSome then p
  else
    match twoGroups LocationData.countyUsRE domain with
    | some (g1, g2) => { p with county := some (pyTitle g1), stateAb := some (upperL g2) }
    | none => p

/-- Cascade step 5: state-level agency hosts (only if no city and no
county yet). -/
def locStep5 (domain : List Char) (p : LocParts) : LocParts :=
  if p.city.isSome || p.county.isSome then p
  else
    match reSearch LocationData.stateLevelRE domain with
    | some (gs, _) =>
      match groupOf gs 1 with
      | some g1 => { p with stateAb := some (upperL g1), stateLevel := true }
      | none => p
    | none => p

/-- Gazetteer step: first known city contained in the text wins; the name
is treated as a county when `"county"` also occurs in the text; the state
is taken from the table only when none was found yet. -/
def locGazetteer (text : List Char) (p : LocParts) : LocParts :=
  if p.city.isSome || p.county.isSome then p
  else
    match LocationData.known_cities.find? (fun kv => containsL text kv.1) with
    | some (city, st) =>
      let p1 :=
        if containsL text (strL "county") then { p with county := some (pyTitle city) }
        else { p with city := some (pyTitle city) }
      if p1.stateAb.isSome then p1 else { p1 with stateAb := some st }
    | none => p

/-- The whole cascade of `extract_location`, producing its locals. -/
def locParts (url title : List Char) : LocParts :=
  let url_lower := lowerL url
  let title_lower := lowerL title
  let text := url_lower ++ ' ' :: title_lower
  let domain := get_domain url
  locGazetteer text
    (locStep5 domain (locStep4 domain (locStep3 domain
      (locStep2 domain (locStep1 domain ⟨none, none, none, false⟩)))))

/-- The composition rule at the end of `extract_location`. -/
def composeLocation (p : LocParts) : List Char :=
  if p.stateLevel ∧ p.stateAb.isSome then
    strL "State of " ++
      ((p.stateAb.bind LocationData.fullNameOf).getD (p.stateAb.getD []))
  else
    match p.county, p.city, p.stateAb with
    | some cty, _, some ab => cty ++ strL " County, " ++ ab
    | none, some c, some ab => c ++ strL ", " ++ ab
    | some _, some c, none => c
    | none, some c, none => c
    | some _, none, none => strL "Unknown"
    | none, none, some ab => ab
    | none, none, none => strL "Unknown"

/-- `extract_location`: the cascade followed by the composition rule. -/
def extract_location (url title : List Char) : List Char :=
  composeLocation (locParts url title)

/- ## Candidate data model

One structure gathers the dictionary keys the pipeline reads or writes on a
result.  Keys a stage may not yet have set are `Option`-valued (a missing
Python key).  The Content Analyzer's presentational strings (`formatted`,
`summary`, `key_findings`) are rendering of the structured fields and are
not read by any later stage; they are omitted from the record. -/

/-- One extracted price: parsed amount and the matching pattern's label. -/
structure PriceFound where
  amount : ℚ
  type : String
deriving Repr, DecidableEq

/-- One extracted date: raw date text and the matching pattern's label. -/
structure DateFound where
  date : List Char
  type : String
deriving Repr, DecidableEq

/-- The structured findings of `ContentAnalyzer.analyze`. -/
structure Analysis where
  prices_found : List PriceFound
  dates_found : List DateFound
  term : Option String
  pricing_model : List String
  included_items : List String
  has_company : Bool
  has_product : Bool
deriving Repr, DecidableEq

/-- The `content_analysis` envelope written by `analyze_pdf_document`. -/
structure ContentAnalysisResult where
  status : String
  analysis : Option Analysis
deriving Repr, DecidableEq

/-- A search-result candidate. -/
structure Candidate where
  title : List Char
  url : List Char
  relevance_score : ℚ := 0
  score_breakdown : List String := []
  include_reason : Option String := none
  document_type : Option String := none
  pricing_likely : Option Bool := none
  location : Option (List Char) := none
  diversity_penalty : Option ℚ := none
  content_analysis : Option ContentAnalysisResult := none
  content_score_adjustment : Option ℚ := none
deriving Repr, DecidableEq

/- ## Filtering and scoring -/

/-- `filter_result`: the admit/reject gate, returning the decision and its
reason. -/
def filter_result (result : Candidate) (company product : String) : Bool × String :=
  let url := result.url
  let title := result.title
  let text := lowerL (title ++ ' ' :: url)
  if (is_blocked_domain url).1 then
    (false, "Blocked domain: " ++ String.mk (is_blocked_domain url).2)
  else if is_user_doc url title then (false, "User documentation")
  else
    let has_company := containsL text (lowerL company.data)
    let has_product := containsL text (lowerL product.data)
    if is_pdf_url url && is_trusted_domain url then (true, "PDF from trusted domain")
    else if is_pdf_url url && has_good_url_pattern url then
      (true, "PDF from document repository")
    else if !has_company && !has_product then (false, "No company/product match")
    else
      let contract_keywords :=
        [strL "contract", strL "agreement", strL "procurement", strL "purchasing",
         strL "rfp", strL "bid", strL "proposal", strL "memo", strL "resolution",
         strL "agenda", strL "ordinance", strL "staff report", strL "award",
         strL "amendment", strL "renewal", strL "pricing", strL "order form",
         strL "fee schedule"]
      if contract_keywords.any (fun kw => containsL text kw) then
        (true, "Has contract keyword")
      else if is_trusted_domain url && (has_company || has_product) then
        (true, "Trusted domain with match")
      else if has_good_url_pattern url then (true, "Document repository pattern")
      else (false, "No contract signals")

/-- The floor of a rational, computed by floor division of numerator by
denominator. -/
def ratFloor (q : ℚ) : ℤ := q.num.fdiv q.den

/-- Renders a non-negative rational that is a multiple of one tenth the way
Python renders the corresponding float (`"1.5"`, `"3.0"`, ...). -/
def fmtTenths (q : ℚ) : String :=
  let t : ℤ := ratFloor (q * 10)
  toString (t / 10) ++ "." ++ toString (t % 10)

/-- Python `round(x, 1)` on the scores that arise here: every score is an
exact multiple of one tenth, on which rounding is the identity, so any
tie-breaking convention models it; round-half-up is used. -/
def round1 (q : ℚ) : ℚ := (ratFloor (q * 10 + 1/2) : ℚ) / 10

/-- The recency regex `20(2[0-6]|1[9])`. -/
def yearRE : RE :=
  .seq (rlit "20")
    (.group 1 (.alt (.seq (rlit "2") (.cls (strL "0123456"))) (rlit "19")))

/-- Numeric value of a list of decimal digits. -/
def digitsVal (ds : List Char) : Nat :=
  ds.foldl (fun acc c => acc * 10 + (c.toNat - 48)) 0

/-- All years found by `re.findall(r'20(2[0-6]|1[9])', text)`, as numbers. -/
def yearsFound (text : List Char) : List Nat :=
  (findIter yearRE text).filterMap fun gs =>
    (groupOf gs 1).map fun g => 2000 + digitsVal g

/-- The login-page regex `(login|signin|welcome|default)\.aspx?$`, as the
equivalent suffix test. -/
def isLoginPage (url : List Char) : Bool :=
  [strL "login.aspx", strL "login.asp", strL "signin.aspx", strL "signin.asp",
   strL "welcome.aspx", strL "welcome.asp", strL "default.aspx", strL "default.asp"
  ].any fun s => s.isSuffixOf url

/-- `score_result`: sums the bonuses and penalties in source order and
returns ((final score, breakdown reasons), candidate with `document_type`
and `pricing_likely` attached). -/
def score_result (result : Candidate) (company product : String) :
    (ℚ × List String) × Candidate :=
  let url := lowerL result.url
  let title := lowerL result.title
  let text := title ++ ' ' :: url
  let company_lower := lowerL company.data
  let product_lower := lowerL product.data
  -- entity matching
  let s1 : ℚ × List String :=
    if containsL text company_lower then (3/2, ["+1.5 company"]) else (0, [])
  let s2 : ℚ × List String :=
    if containsL text product_lower then (s1.1 + 3/2, s1.2 ++ ["+1.5 product"]) else s1
  -- document format
  let s3 : ℚ × List String :=
    if is_pdf_url url then (s2.1 + 3/2, s2.2 ++ ["+1.5 PDF"]) else s2
  -- domain trust
  let s4 : ℚ × List String :=
    if containsL url (strL ".gov") then (s3.1 + 5/2, s3.2 ++ ["+2.5 .gov"])
    else if is_trusted_domain url then (s3.1 + 2, s3.2 ++ ["+2.0 trusted"])
    else if has_good_url_pattern url then (s3.1 + 1, s3.2 ++ ["+1.0 doc repo"])
    else s3
  -- document type bonus
  let dt := DocumentType.classify url title
  let s5 : ℚ × List String :=
    if dt.1 = "Order Form" then (s4.1 + 5/2, s4.2 ++ ["+2.5 order form"])
    else if dt.1 = "Contract/Agreement" then (s4.1 + 2, s4.2 ++ ["+2.0 contract"])
    else if dt.1 = "Pricing Document" then (s4.1 + 2, s4.2 ++ ["+2.0 pricing doc"])
    else if dt.1 = "Staff Report/Memo" then (s4.1 + 1, s4.2 ++ ["+1.0 staff report"])
    else if dt.1 = "RFP/Proposal" then (s4.1 + 1/2, s4.2 ++ ["+0.5 rfp/proposal"])
    else s4
  -- high-value title patterns: the single highest matching bonus
  let title_bonus : ℚ :=
    SearchConfig.HIGH_VALUE_TITLE_PATTERNS.foldl
      (fun b pv => if containsL title pv.1 then max b pv.2 else b) 0
  let s6 : ℚ × List String :=
    if 0 < title_bonus then
      (s5.1 + title_bonus, s5.2 ++ ["+" ++ fmtTenths title_bonus ++ " title pattern"])
    else s5
  -- recency
  let years := yearsFound text
  let s7 : ℚ × List String :=
    match years with
    | [] => s6
    | y :: ys =>
      let latest := ys.foldl max y
      if 2024 ≤ latest then (s6.1 + 1, s6.2 ++ ["+1.0 " ++ toString latest])
      else if 2022 ≤ latest then (s6.1 + 1/2, s6.2 ++ ["+0.5 " ++ toString latest])
      else s6
  -- penalties
  let s8 : ℚ × List String :=
    if is_user_doc url title then (s7.1 - 3, s7.2 ++ ["-3.0 user doc"]) else s7
  let s9 : ℚ × List String :=
    if isLoginPage url then (s8.1 - 2, s8.2 ++ ["-2.0 login page"]) else s8
  -- round to one decimal, floor at 0; attach classification to the result
  ((max (round1 s9.1) 0, s9.2),
   { result with document_type := some dt.1, pricing_likely := some dt.2.pricing_likely })

/- ## Content analysis (`ContentAnalyzer`) -/

namespace ContentAnalyzer

/-- The capture `([\d,]+(?:\.\d{2})?)`, as group 1. -/
def amountGroup : RE :=
  .group 1 (.seq (.plus clsDigitComma)
    (.opt (seqs [rlit ".", .cls clsDigit, .cls clsDigit])))

/-- `[:\s]*\$?` followed by the amount capture. -/
def sepDollarAmount : RE :=
  seqs [.star clsColonWs, .opt (rlit "$"), amountGroup]

/-- `PRICE_PATTERNS`, in source order. -/
def PRICE_PATTERNS : List (RE × String) :=
  [(seqs [alts [rlit "total", rlit "contract", rlit "agreement"], .star clsWs,
          alts [rlit "amount", rlit "value", rlit "price", rlit "cost"],
          sepDollarAmount], "Total Value"),
   (seqs [rlit "not", .cls clsDashSpace, rlit "to", .cls clsDashSpace,
          rlit "exceed", sepDollarAmount], "Not to Exceed"),
   (seqs [alts [rlit "annual", rlit "yearly"], .star clsWs,
          alts [rlit "fee", rlit "cost", rlit "subscription", rlit "amount"],
          sepDollarAmount], "Annual Fee"),
   (seqs [rlit "monthly", .star clsWs,
          alts [rlit "fee", rlit "cost", rlit "subscription"],
          sepDollarAmount], "Monthly Fee"),
   (seqs [alts [seqs [rlit "one", .cls clsDashSpace, rlit "time"],
                rlit "implementation", rlit "setup"],
          .star clsWs, alts [rlit "fee", rlit "cost"], sepDollarAmount],
    "One-time Fee"),
   (seqs [alts [rlit "license", rlit "licensing"], .star clsWs,
          alts [rlit "fee", rlit "cost"], sepDollarAmount], "License Fee"),
   (seqs [alts [rlit "maintenance", rlit "support"], .star clsWs,
          alts [rlit "fee", rlit "cost"], sepDollarAmount], "Maintenance Fee"),
   (seqs [alts [rlit "professional services", rlit "consulting",
                rlit "implementation services"], sepDollarAmount], "Services Fee"),
   (seqs [rlit "$", amountGroup, .star clsWs,
          alts [rlit "per year", rlit "annually", rlit "/year"]], "Per Year"),
   (seqs [rlit "$", amountGroup, .star clsWs,
          alts [rlit "per month", rlit "monthly", rlit "/month"]], "Per Month")]

/-- The date capture: a month-name form `[A-Za-z]+\s+\d{1,2},?\s+\d{4}`
or a numeric form of day and month separated by slash or dash and a
four-digit year, as group 1. -/
def dateGroup : RE :=
  .group 1 (.alt
    (seqs [.plus clsAlpha, .plus clsWs, .cls clsDigit, .opt (.cls clsDigit),
           .opt (rlit ","), .plus clsWs,
           .cls clsDigit, .cls clsDigit, .cls clsDigit, .cls clsDigit])
    (seqs [.cls clsDigit, .opt (.cls clsDigit), .cls clsSlashDash,
           .cls clsDigit, .opt (.cls clsDigit), .cls clsSlashDash,
           .cls clsDigit, .cls clsDigit, .cls clsDigit, .cls clsDigit]))

/-- `DATE_PATTERNS`, in source order. -/
def DATE_PATTERNS : List (RE × String) :=
  [(seqs [alts [rlit "effective", rlit "start", rlit "commencement"], .star clsWs,
          rlit "date", .star clsColonWs, dateGroup], "Effective Date"),
   (seqs [alts [rlit "end", rlit "expiration", rlit "termination", rlit "expiry"],
          .star clsWs, rlit "date", .star clsColonWs, dateGroup], "End Date"),
   (seqs [alts [rlit "expire", rlit "expires", rlit "expiring",
                .seq (rlit "terminate") (.opt (rlit "s"))],
          .star clsWs, .opt (seqs [rlit "on", .plus clsWs]), dateGroup],
    "Expiration"),
   (seqs [alts [rlit "through", rlit "until", rlit "ending"], .plus clsWs,
          dateGroup], "Valid Through")]

/-- The term-count capture `(\d+)`, as group 1. -/
def numGroup : RE := .group 1 (.plus clsDigit)

/-- `TERM_PATTERNS`, in source order. `true` marks the months variant. -/
def TERM_PATTERNS : List (RE × Bool) :=
  [(seqs [.opt (seqs [rlit "initial", .plus clsWs]), rlit "term", .plus clsWs,
          .opt (seqs [rlit "of", .plus clsWs]), numGroup, .star clsWs,
          .seq (alts [rlit "year", rlit "yr"]) (.opt (rlit "s"))], false),
   (seqs [numGroup, .cls clsDashSpace, rlit "year", .plus clsWs,
          alts [rlit "term", rlit "agreement", rlit "contract"]], false),
   (seqs [.opt (seqs [rlit "initial", .plus clsWs]), rlit "term", .plus clsWs,
          .opt (seqs [rlit "of", .plus clsWs]), numGroup, .star clsWs,
          .seq (rlit "month") (.opt (rlit "s"))], true)]

def PRICING_MODEL_KEYWORDS : List (String × List (List Char)) :=
  [("subscription", [strL "subscription", strL "saas", strL "annual fee", strL "recurring"]),
   ("perpetual", [strL "perpetual license", strL "one-time license", strL "permanent license"]),
   ("per_user", [strL "per user", strL "per seat", strL "named user", strL "concurrent user"]),
   ("tiered", [strL "tiered pricing", strL "volume discount", strL "tier 1", strL "tier 2"]),
   ("population_based", [strL "population-based", strL "per capita", strL "based on population"])]

def INCLUDED_KEYWORDS : List (String × List (List Char)) :=
  [("Software License", [strL "software license", strL "license grant", strL "right to use"]),
   ("Maintenance/Support", [strL "maintenance", strL "support services", strL "technical support", strL "help desk"]),
   ("Implementation", [strL "implementation", strL "configuration", strL "setup", strL "installation"]),
   ("Training", [strL "training", strL "user training", strL "admin training"]),
   ("Hosting", [strL "hosting", strL "cloud hosting", strL "saas", strL "data center"]),
   ("Data Migration", [strL "data migration", strL "data conversion", strL "import"]),
   ("Customization", [strL "customization", strL "custom development", strL "modifications"]),
   ("Integrations", [strL "integration", strL "api", strL "interface", strL "third-party"])]

/-- Python `float(group.replace(',', ''))` on an amount capture: the capture
is digits and commas optionally followed by `.` and two digits, so after
comma removal the parse succeeds exactly when a digit remains on either
side of the dot (`float('')` raises and the match is skipped). -/
def parseAmount (g : List Char) : Option ℚ :=
  let s := g.filter fun c => c ≠ ','
  let intPart := s.takeWhile Char.isDigit
  let rest := s.dropWhile Char.isDigit
  match rest with
  | [] => if intPart.isEmpty then none else some (digitsVal intPart)
  | '.' :: ds =>
    if ds.isEmpty || !ds.all Char.isDigit then none
    else some ((digitsVal intPart : ℚ) + (digitsVal ds : ℚ) / (10 ^ ds.length : ℕ))
  | _ => none

/-- The prices appended by one pattern's `finditer` loop: each match whose
amount parses and is at least 100 contributes one entry. -/
def pricesOfPattern (text : List Char) (pat : RE) (label : String) : List PriceFound :=
  (findIter pat text).filterMap fun gs =>
    (groupOf gs 1).bind fun g =>
      (parseAmount g).bind fun amount =>
        if 100 ≤ amount then some ⟨amount, label⟩ else none

/-- All raw price entries, per pattern in source order. -/
def rawPrices (text : List Char) : List PriceFound :=
  PRICE_PATTERNS.foldl (fun acc pl => acc ++ pricesOfPattern text pl.1 pl.2) []

/-- Stable insertion into a descending-by-amount list (a later-processed
entry goes after earlier entries of equal amount). -/
def insertPriceDesc (p : PriceFound) : List PriceFound → List PriceFound
  | [] => [p]
  | q :: qs => if q.amount < p.amount then p :: q :: qs else q :: insertPriceDesc p qs

/-- Python's stable `sorted(..., key=amount, reverse=True)`. -/
def sortPricesDesc (l : List PriceFound) : List PriceFound :=
  l.foldl (fun acc p => insertPriceDesc p acc) []

/-- The dedup loop: keep the first entry for each amount. -/
def dedupPrices (seen : List ℚ) : List PriceFound → List PriceFound
  | [] => []
  | p :: ps =>
    if p.amount ∈ seen then dedupPrices seen ps
    else p :: dedupPrices (p.amount :: seen) ps

/-- The first match of the first matching date pattern for each role. -/
def datesFound (text : List Char) : List DateFound :=
  DATE_PATTERNS.filterMap fun pl =>
    (reSearch pl.1 text).bind fun o =>
      (groupOf o.1 1).map fun g => ⟨g, pl.2⟩

/-- The first matching term pattern, rendered as in the source. -/
def termFound (text : List Char) : Option String :=
  (TERM_PATTERNS.filterMap fun pm =>
    (reSearch pm.1 text).bind fun o =>
      (groupOf o.1 1).map fun g =>
        let v := digitsVal g
        if pm.2 then toString v ++ " months"
        else toString v ++ " year" ++ (if 1 < v then "s" else "")).head?

/-- `ContentAnalyzer.analyze` (the structured findings; the presentational
summary strings are not modelled). -/
def analyze (text : List Char) (company product : String) : Analysis :=
  let text_lower := lowerL text
  { prices_found := (dedupPrices [] (sortPricesDesc (rawPrices text_lower))).take 8
    dates_found := datesFound text_lower
    term := termFound text_lower
    pricing_model := PRICING_MODEL_KEYWORDS.filterMap fun mk =>
      if mk.2.any (fun kw => containsL text_lower kw) then some mk.1 else none
    included_items := INCLUDED_KEYWORDS.filterMap fun ik =>
      if ik.2.any (fun kw => containsL text_lower kw) then some ik.1 else none
    has_company := containsL text_lower (lowerL company.data)
    has_product := containsL text_lower (lowerL product.data) }

end ContentAnalyzer

/- ## Re-scoring after content analysis (`rescore_after_analysis`) -/

/-- Stable insertion into a descending-by-score candidate list. -/
def insertByScore (c : Candidate) : List Candidate → List Candidate
  | [] => [c]
  | d :: ds =>
    if d.relevance_score < c.relevance_score then c :: d :: ds
    else d :: insertByScore c ds

/-- Python's stable `list.sort(key=relevance_score, reverse=True)`. -/
def sortByScoreDesc (l : List Candidate) : List Candidate :=
  l.foldl (fun acc c => insertByScore c acc) []

/-- The loop body of `rescore_after_analysis` on one candidate: skipped
unchanged unless its content analysis has status `'analyzed'` and a
payload; otherwise the four adjustments are applied in order, the score is
floored at 0 and the adjustments are appended to the breakdown. -/
def rescoreOne (c : Candidate) (company product : String) : Candidate :=
  match c.content_analysis with
  | none => c
  | some ca =>
    if ca.status ≠ "analyzed" then c
    else
      match ca.analysis with
      | none => c
      | some analysis =>
        let a1 : ℚ × List String :=
          if !analysis.prices_found.isEmpty then (2, ["+2.0 pricing found"])
          else (0, [])
        let a2 : ℚ × List String :=
          if analysis.has_product then
            (a1.1 + 3/2, a1.2 ++ ["+1.5 " ++ product ++ " mentioned"])
          else (a1.1 - 2, a1.2 ++ ["-2.0 " ++ product ++ " NOT mentioned"])
        let a3 : ℚ × List String :=
          if analysis.has_company then
            (a2.1 + 1, a2.2 ++ ["+1.0 " ++ company ++ " mentioned"])
          else (a2.1 - 3/2, a2.2 ++ ["-1.5 " ++ company ++ " NOT mentioned"])
        let a4 : ℚ × List String :=
          if analysis.term.isSome then (a3.1 + 1/2, a3.2 ++ ["+0.5 term found"])
          else a3
        let newScore := max (c.relevance_score + a4.1) 0
        { c with
            relevance_score := newScore
            score_breakdown := c.score_breakdown ++ a4.2
            content_score_adjustment := some (newScore - c.relevance_score) }

/-- `rescore_after_analysis`: adjust each candidate from its content
analysis, then re-sort by descending score. -/
def rescore_after_analysis (results : List Candidate) (company product : String) :
    List Candidate :=
  sortByScoreDesc (results.map fun c => rescoreOne c company product)

/- ## Filtering and scoring of a batch (`process_results`) -/

/-- `process_results`: keep the admitted candidates, score them, and sort
by descending score. -/
def process_results (results : List Candidate) (company product : String) :
    List Candidate :=
  sortByScoreDesc <| results.filterMap fun result =>
    let fr := filter_result result company product
    if fr.1 then
      let sc := score_result result company product
      some { sc.2 with
               relevance_score := sc.1.1
               score_breakdown := sc.1.2
               include_reason := some fr.2 }
    else none

/- ## Deduplication (`normalize_url`, `deduplicate_results`) -/

/-- Split a character list on a separator character (Python `str.split`). -/
def splitOnC (ch : Char) : List Char → List (List Char)
  | [] => [[]]
  | c :: rest =>
    let r := splitOnC ch rest
    if c = ch then [] :: r
    else
      match r with
      | [] => [[c]]
      | h :: t => (c :: h) :: t

/-- `normalize_url`: lower-case, strip the fragment, strip trailing
slashes, and keep only query parameters mentioning an id, doc or file
key. -/
def normalize_url (url : List Char) : List Char :=
  let u := ((lowerL url).takeWhile (· ≠ '#')).reverse.dropWhile (· = '/') |>.reverse
  if u.any (· = '?') then
    let base := u.takeWhile (· ≠ '?')
    let params := u.drop (base.length + 1)
    let keep := (splitOnC '&' params).filter fun p =>
      [strL "id=", strL "doc=", strL "file="].any fun k => containsL p k
    base ++ (if keep.isEmpty then [] else '?' :: List.intercalate (strL "&") keep)
  else u

/-- One step of `deduplicate_results`' dictionary loop: insert the
candidate under its normalized URL, replacing an existing entry only when
the new score is strictly greater. -/
def dedupStep (seen : List (List Char × Candidate)) (c : Candidate) :
    List (List Char × Candidate) :=
  let n := normalize_url c.url
  match seen.find? (fun kv => kv.1 == n) with
  | none => seen ++ [(n, c)]
  | some old =>
    if old.2.relevance_score < c.relevance_score then
      seen.map fun kv => if kv.1 == n then (kv.1, c) else kv
    else seen

/-- `deduplicate_results`: values of the dictionary, in key insertion
order. -/
def deduplicate_results (results : List Candidate) : List Candidate :=
  (results.foldl dedupStep []).map Prod.snd

/- ## Location diversity (`apply_location_diversity`) -/

/-- The penalty for occurrence index `k ≥ 1` of a repeated location, with
the source's default arguments. -/
def divPenalty (k : ℕ) : ℚ := min (k * (3/2)) 4

/-- Count lookup in the running per-location counter (default 0). -/
def cntLookup (counts : List (List Char × ℕ)) (loc : List Char) : ℕ :=
  ((counts.find? fun kv => kv.1 == loc).map Prod.snd).getD 0

/-- Increment the running per-location counter. -/
def cntBump (counts : List (List Char × ℕ)) (loc : List Char) : List (List Char × ℕ) :=
  match counts.find? (fun kv => kv.1 == loc) with
  | none => counts ++ [(loc, 1)]
  | some _ => counts.map fun kv => if kv.1 == loc then (kv.1, kv.2 + 1) else kv

/-- The loop body of `apply_location_diversity` on one candidate, given the
count already seen for its location: the location is attached; an
`'Unknown'` or first-occurrence location changes nothing else; a repeated
location subtracts `divPenalty` (floored at 0) and records it. -/
def divTransform (loc : List Char) (k : ℕ) (c : Candidate) : Candidate :=
  if loc = strL "Unknown" then { c with location := some loc }
  else if k = 0 then { c with location := some loc }
  else
    { c with
        location := some loc
        relevance_score := max (c.relevance_score - divPenalty k) 0
        score_breakdown := c.score_breakdown ++
          ["-" ++ fmtTenths (divPenalty k) ++ " location #" ++ toString (k + 1)]
        diversity_penalty := some (divPenalty k) }

/-- The main loop of `apply_location_diversity`, threading the
per-location occurrence counter. -/
def divLoop (counts : List (List Char × ℕ)) : List Candidate → List Candidate
  | [] => []
  | c :: cs =>
    let loc := extract_location c.url c.title
    if loc = strL "Unknown" then divTransform loc 0 c :: divLoop counts cs
    else
      divTransform loc (cntLookup counts loc) c :: divLoop (cntBump counts loc) cs

/-- The diversity pass before the final sort. -/
def diversityPass (results : List Candidate) : List Candidate := divLoop [] results

/-- `apply_location_diversity` (with its default penalty arguments): the
diversity pass followed by re-sorting by descending score. -/
def apply_location_diversity (results : List Candidate) : List Candidate :=
  sortByScoreDesc (diversityPass results)

/-- The invariant maintained by `extract_location`'s cascade: a found city
or county always comes with a state code, a state-level flag always comes
with a state code, and a state code is only ever set together with a city,
a county, or the state-level flag. -/
def LocInv (p : LocParts) : Prop :=
  (p.city.isSome → p.stateAb.isSome) ∧
  (p.county.isSome → p.stateAb.isSome) ∧
  (p.stateLevel = true → p.stateAb.isSome) ∧
  (p.stateAb.isSome → p.city.isSome ∨ p.county.isSome ∨ p.stateLevel = true)

/- ## Concrete candidates used in witnesses and counterexamples -/

/-- The scenario candidate of the specification's testable properties. -/
def c2cand : Candidate :=
  { title := strL "Acme Corp Renewal Order Form 2025",
    url := strL "https://cityname.ca.gov/documents/acme-order.pdf" }

/-- A plain candidate over a host no extraction rule recognizes. -/
def wcand : Candidate :=
  { title := strL "Acme Corp contract", url := strL "https://example.org/contract.pdf",
    relevance_score := 5 }

/-- A candidate over the gazetteer city Kern, parameterized by score and
URL path. -/
def wkern (score : ℚ) (path : String) : Candidate :=
  { title := strL "Kern agreement", url := strL ("https://example.org/" ++ path),
    relevance_score := score }

/- ## Helper lemmas -/

/-- `Char.ofNat` at a valid code point round-trips through `toNat`. -/
theorem toNat_ofNat_valid (n : Nat) (h : n.isValidChar) : (Char.ofNat n).toNat = n := by
  unfold Char.ofNat
  rw [dif_pos h]
  unfold Char.ofNatAux Char.toNat
  simp [UInt32.ofNat', UInt32.toNat, Fin.val]

/-- Lower-casing a character is idempotent. -/
theorem lowerChar_idem (c : Char) : lowerChar (lowerChar c) = lowerChar c := by
  unfold lowerChar Char.toLower
  by_cases h : c.toNat ≥ 65 ∧ c.toNat ≤ 90
  · simp only [if_pos h]
    have hv : (c.toNat + 32).isValidChar := by
      unfold Nat.isValidChar
      left
      omega
    rw [if_neg]
    rw [toNat_ofNat_valid _ hv]
    omega
  · simp only [if_neg h]

/-- Lower-casing text is idempotent (`s.lower().lower() == s.lower()`). -/
theorem lowerL_idem (s : List Char) : lowerL (lowerL s) = lowerL s := by
  unfold lowerL
  rw [List.map_map]
  exact List.map_congr_left fun c _ => lowerChar_idem c

/- ## Claims -/

/-- C2 counterexample: on the scenario candidate the score is 11.5, below
the claimed bound of 11.6 (the listed bonuses sum to 11.5), and the
extracted location is `"Unknown"`, which does not contain `"CA"`. -/
theorem c2_counterexample :
    ((score_result c2cand "Acme Corp" "Widget").1).1 < 58/5 ∧
    containsL (extract_location c2cand.url c2cand.title) (strL "CA") = false :=
  ⟨by decide, by decide⟩

/-- C2 (amended): the scenario candidate is admitted as a PDF from a
trusted domain, classifies as an Order Form, scores exactly
1.5 + 1.5 + 2.5 + 2.5 + 2.5 + 1.0 = 11.5 with exactly those six breakdown
entries, and its extracted location is `"Unknown"` (no host pattern or
gazetteer entry matches `cityname`). -/
theorem c2_scenario :
    filter_result c2cand "Acme Corp" "Widget" = (true, "PDF from trusted domain") ∧
    (DocumentType.classify c2cand.url c2cand.title).1 = "Order Form" ∧
    ((score_result c2cand "Acme Corp" "Widget").1).1 = 3/2 + 3/2 + 5/2 + 5/2 + 5/2 + 1 ∧
    ((score_result c2cand "Acme Corp" "Widget").1).2 =
      ["+1.5 company", "+1.5 PDF", "+2.5 .gov", "+2.5 order form",
       "+2.5 title pattern", "+1.0 2025"] ∧
    extract_location c2cand.url c2cand.title = strL "Unknown" :=
  ⟨by decide, by decide, by decide, by decide, by decide⟩

/-- C4 counterexample: a blob containing both `"agreement"` and
`"staff report"` need not classify as `"Staff Report/Memo"` — when it also
contains `"order form"` the higher-priority Order Form type wins. -/
theorem c4_counterexample :
    containsL (lowerL (strL "" ++ ' ' :: strL "order form agreement staff report"))
      (strL "agreement") = true ∧
    containsL (lowerL (strL "" ++ ' ' :: strL "order form agreement staff report"))
      (strL "staff report") = true ∧
    (DocumentType.classify (strL "") (strL "order form agreement staff report")).1
      ≠ "Staff Report/Memo" :=
  ⟨by decide, by decide, by decide⟩

/-- C4 (amended): whenever the case-folded URL+title blob contains both
`"agreement"` and `"staff report"`, the classifier never returns
`"Contract/Agreement"` (the exclusion pattern wins), and if additionally
no Order Form and no Pricing Document inclusion pattern matches, it
returns `"Staff Report/Memo"`. -/
theorem c4_exclusion (url title : List Char)
    (_h1 : containsL (lowerL (url ++ ' ' :: title)) (strL "agreement") = true)
    (h2 : containsL (lowerL (url ++ ' ' :: title)) (strL "staff report") = true) :
    (DocumentType.classify url title).1 ≠ "Contract/Agreement" ∧
    (DocumentType.matchesOrderForm (lowerL (url ++ ' ' :: title)) = false →
      DocumentType.matchesPricing (lowerL (url ++ ' ' :: title)) = false →
      (DocumentType.classify url title).1 = "Staff Report/Memo") := by
  have hex : DocumentType.contractExcluded (lowerL (url ++ ' ' :: title)) = true := by
    unfold DocumentType.contractExcluded DocumentType.anyLit
    simp [h2]
  have hsr : DocumentType.matchesStaffReport (lowerL (url ++ ' ' :: title)) = true := by
    unfold DocumentType.matchesStaffReport DocumentType.anyLit
    simp [h2]
  constructor
  · unfold DocumentType.classify
    simp only [hex, hsr, Bool.not_true, Bool.false_and, Bool.false_eq_true, if_false]
    split
    · simp
    split
    · simp
    simp
  · intro hof hpd
    unfold DocumentType.classify
    simp [hof, hex, hpd, hsr]

/-- C4 witness: a blob with both markers and nothing of higher priority
classifies as a staff report, not a contract. -/
theorem c4_witness :
    containsL (lowerL (strL "x" ++ ' ' :: strL "agreement staff report"))
        (strL "agreement") = true ∧
    (DocumentType.classify (strL "x") (strL "agreement staff report")).1
        ≠ "Contract/Agreement" ∧
    (DocumentType.classify (strL "x") (strL "agreement staff report")).1
        = "Staff Report/Memo" :=
  ⟨by decide,
   (c4_exclusion (strL "x") (strL "agreement staff report") (by decide) (by decide)).1,
   (c4_exclusion (strL "x") (strL "agreement staff report") (by decide) (by decide)).2
     (by decide) (by decide)⟩

/-- Lower-casing the arguments first does not change the user-doc test
(the test lower-cases internally), so the test in `score_result` — which
receives already lower-cased text — agrees with the one in
`filter_result`. -/
theorem is_user_doc_lower (u t : List Char) :
    is_user_doc (lowerL u) (lowerL t) = is_user_doc u t := by
  unfold is_user_doc
  rw [lowerL_idem, lowerL_idem]

/-- C9: a candidate admitted by the filter is never user documentation, so
the −3.0 user-doc penalty branch of `score_result` (whose guard is the
user-doc test on the lower-cased URL and title) is unreachable for
candidates that reach scoring through the filter. -/
theorem c9_no_userdoc_after_filter (r : Candidate) (company product : String)
    (h : (filter_result r company product).1 = true) :
    is_user_doc r.url r.title = false ∧
    is_user_doc (lowerL r.url) (lowerL r.title) = false := by
  have h1 : is_user_doc r.url r.title = false := by
    by_contra hne
    rw [Bool.not_eq_false] at hne
    simp only [filter_result] at h
    rw [hne] at h
    split at h
    · simp at h
    · simp at h
  exact ⟨h1, by rw [is_user_doc_lower]; exact h1⟩

/-- C9 witness: a concrete admitted candidate is not user documentation. -/
theorem c9_witness :
    (filter_result wcand "Acme Corp" "Widget").1 = true ∧
    is_user_doc wcand.url wcand.title = false ∧
    is_user_doc (lowerL wcand.url) (lowerL wcand.title) = false :=
  ⟨by decide,
   c9_no_userdoc_after_filter wcand "Acme Corp" "Widget" (by decide)⟩

/-- Membership through stable insertion. -/
theorem mem_insertByScore {a c : Candidate} {l : List Candidate} :
    a ∈ insertByScore c l ↔ a = c ∨ a ∈ l := by
  induction l with
  | nil => simp [insertByScore]
  | cons d ds ih =>
    unfold insertByScore
    split
    · simp [List.mem_cons]
    · simp only [List.mem_cons, ih]
      tauto

/-- Sorting by descending score preserves membership. -/
theorem mem_sortByScoreDesc {a : Candidate} {l : List Candidate} :
    a ∈ sortByScoreDesc l ↔ a ∈ l := by
  suffices h : ∀ init, a ∈ l.foldl (fun acc c => insertByScore c acc) init ↔ a ∈ l ∨ a ∈ init by
    simpa using h []
  induction l with
  | nil => simp
  | cons c cs ih =>
    intro init
    simp only [List.foldl_cons, ih, mem_insertByScore, List.mem_cons]
    tauto

/-- The rescoring loop body never produces a negative score from a
non-negative one (the adjusted branch is floored at 0; the skipped branch
is unchanged). -/
theorem rescoreOne_nonneg (c : Candidate) (company product : String)
    (h : 0 ≤ c.relevance_score) :
    0 ≤ (rescoreOne c company product).relevance_score := by
  unfold rescoreOne
  split
  · exact h
  · split
    · exact h
    · split
      · exact h
      · simp only []
        exact le_max_right _ _

/-- The diversity loop body never produces a negative score from a
non-negative one. -/
theorem divTransform_nonneg (loc : List Char) (k : ℕ) (c : Candidate)
    (h : 0 ≤ c.relevance_score) :
    0 ≤ (divTransform loc k c).relevance_score := by
  unfold divTransform
  split
  · exact h
  · split
    · exact h
    · exact le_max_right _ _

/-- Every output of the diversity loop is the transform of some input. -/
theorem mem_divLoop {c' : Candidate} :
    ∀ {counts : List (List Char × ℕ)} {l : List Candidate}, c' ∈ divLoop counts l →
      ∃ c ∈ l, ∃ loc k, c' = divTransform loc k c := by
  intro counts l
  induction l generalizing counts with
  | nil => simp [divLoop]
  | cons c cs ih =>
    unfold divLoop
    dsimp only
    split
    · intro h
      rcases List.mem_cons.mp h with rfl | hmem
      · exact ⟨c, List.mem_cons_self .., _, _, rfl⟩
      · obtain ⟨d, hd, loc, k, rfl⟩ := ih hmem
        exact ⟨d, List.mem_cons_of_mem _ hd, loc, k, rfl⟩
    · intro h
      rcases List.mem_cons.mp h with rfl | hmem
      · exact ⟨c, List.mem_cons_self .., _, _, rfl⟩
      · obtain ⟨d, hd, loc, k, rfl⟩ := ih hmem
        exact ⟨d, List.mem_cons_of_mem _ hd, loc, k, rfl⟩

/-- C1: the relevance score is never negative after any stage —
`score_result` returns a floored, hence non-negative, value; starting from
non-negative scores, every candidate after `rescore_after_analysis` and
after `apply_location_diversity` still has a non-negative score (each
adjustment is floored at 0). -/
theorem c1_scores_nonneg :
    (∀ (r : Candidate) (company product : String),
       0 ≤ ((score_result r company product).1).1) ∧
    (∀ (results : List Candidate) (company product : String),
       (∀ c ∈ results, 0 ≤ c.relevance_score) →
       ∀ c ∈ rescore_after_analysis results company product, 0 ≤ c.relevance_score) ∧
    (∀ results : List Candidate,
       (∀ c ∈ results, 0 ≤ c.relevance_score) →
       ∀ c ∈ apply_location_diversity results, 0 ≤ c.relevance_score) := by
  refine ⟨?_, ?_, ?_⟩
  · intro r company product
    exact le_max_right _ _
  · intro results company product h c hc
    rw [rescore_after_analysis, mem_sortByScoreDesc] at hc
    obtain ⟨d, hd, rfl⟩ := List.mem_map.mp hc
    exact rescoreOne_nonneg d company product (h d hd)
  · intro results h c hc
    rw [apply_location_diversity, mem_sortByScoreDesc, diversityPass] at hc
    obtain ⟨d, hd, loc, k, rfl⟩ := mem_divLoop hc
    exact divTransform_nonneg _ _ _ (h d hd)

/-- C1 witness: non-negativity at a concrete candidate through each
stage. -/
theorem c1_witness :
    0 ≤ ((score_result wcand "Acme Corp" "Widget").1).1 ∧
    (0 ≤ (rescoreOne wcand "Acme Corp" "Widget").relevance_score) ∧
    (0 ≤ ({ wcand with location := some (strL "Unknown") } : Candidate).relevance_score) :=
  ⟨c1_scores_nonneg.1 wcand "Acme Corp" "Widget",
   c1_scores_nonneg.2.1 [wcand] "Acme Corp" "Widget" (by decide) _ (by decide),
   c1_scores_nonneg.2.2 [wcand] (by decide) _ (by decide)⟩

/-- A key not among an association list's keys is not found. -/
theorem find?_eq_none_of_fresh {seen : List (List Char × Candidate)} {n : List Char}
    (h : n ∉ seen.map Prod.fst) :
    (seen.find? fun kv => kv.1 == n) = none := by
  rw [List.find?_eq_none]
  intro kv hkv
  simp only [beq_iff_eq]
  intro heq
  exact h (heq ▸ List.mem_map_of_mem Prod.fst hkv)

/-- Inserting a candidate with a fresh normalized URL appends it. -/
theorem dedupStep_fresh {seen : List (List Char × Candidate)} {c : Candidate}
    (h : normalize_url c.url ∉ seen.map Prod.fst) :
    dedupStep seen c = seen ++ [(normalize_url c.url, c)] := by
  simp only [dedupStep]
  rw [find?_eq_none_of_fresh h]

/-- Folding the dedup step over candidates whose normalized URLs are
pairwise distinct and fresh for the accumulator just appends them all. -/
theorem foldl_dedupStep_fresh :
    ∀ (l : List Candidate) (init : List (List Char × Candidate)),
      (l.map fun c => normalize_url c.url).Nodup →
      (∀ c ∈ l, normalize_url c.url ∉ init.map Prod.fst) →
      l.foldl dedupStep init = init ++ l.map fun c => (normalize_url c.url, c) := by
  intro l
  induction l with
  | nil =>
    intro init _ _
    simp
  | cons c cs ih =>
    intro init hnd hfresh
    rw [List.foldl_cons, dedupStep_fresh (hfresh c (List.mem_cons_self ..))]
    rw [List.map_cons] at hnd
    have hnd' := (List.nodup_cons.mp hnd).2
    have hne := (List.nodup_cons.mp hnd).1
    rw [ih _ hnd' ?_]
    · simp
    · intro d hd
      simp only [List.map_append, List.mem_append]
      rintro (hin | hsingle)
      · exact hfresh d (List.mem_cons_of_mem _ hd) hin
      · simp only [List.map_cons, List.map_nil, List.mem_cons, List.not_mem_nil] at hsingle
        rcases hsingle with heq | hfalse
        · exact hne (heq ▸ List.mem_map_of_mem (fun c => normalize_url c.url) hd)
        · exact hfalse

/-- The dedup step preserves distinctness of stored keys and the fact that
each stored key is its candidate's normalized URL. -/
theorem dedupStep_invariant {seen : List (List Char × Candidate)} {c : Candidate}
    (hnd : (seen.map Prod.fst).Nodup)
    (hcons : ∀ kv ∈ seen, kv.1 = normalize_url kv.2.url) :
    ((dedupStep seen c).map Prod.fst).Nodup ∧
      ∀ kv ∈ dedupStep seen c, kv.1 = normalize_url kv.2.url := by
  cases hf : seen.find? fun kv => kv.1 == normalize_url c.url with
  | none =>
    have hfresh : normalize_url c.url ∉ seen.map Prod.fst := by
      rw [List.find?_eq_none] at hf
      intro hmem
      obtain ⟨kv, hkv, heq⟩ := List.mem_map.mp hmem
      exact hf kv hkv (by simp [heq])
    have hstep : dedupStep seen c = seen ++ [(normalize_url c.url, c)] := by
      simp only [dedupStep]
      rw [hf]
    rw [hstep]
    constructor
    · simp only [List.map_append, List.map_cons, List.map_nil]
      rw [List.nodup_append]
      refine ⟨hnd, List.nodup_singleton _, ?_⟩
      intro a ha hb
      simp only [List.mem_cons, List.not_mem_nil, or_false] at hb
      subst hb
      exact hfresh ha
    · intro kv hkv
      rcases List.mem_append.mp hkv with hin | hone
      · exact hcons kv hin
      · simp only [List.mem_cons, List.not_mem_nil, or_false] at hone
        subst hone
        rfl
  | some old =>
    by_cases hlt : old.2.relevance_score < c.relevance_score
    · have hstep : dedupStep seen c =
          seen.map fun kv => if kv.1 == normalize_url c.url then (kv.1, c) else kv := by
        simp only [dedupStep]
        rw [hf]
        simp [hlt]
      rw [hstep]
      constructor
      · rw [List.map_map]
        have hcomp : (Prod.fst ∘ fun kv : List Char × Candidate =>
            if kv.1 == normalize_url c.url then (kv.1, c) else kv) = Prod.fst := by
          funext kv
          simp only [Function.comp_apply]
          split <;> rfl
        rw [hcomp]
        exact hnd
      · intro kv hkv
        obtain ⟨kv0, hkv0, heq⟩ := List.mem_map.mp hkv
        by_cases hk : kv0.1 == normalize_url c.url
        · rw [if_pos hk] at heq
          subst heq
          simpa using hk
        · rw [if_neg hk] at heq
          subst heq
          exact hcons kv0 hkv0
    · have hstep : dedupStep seen c = seen := by
        simp only [dedupStep]
        rw [hf]
        simp [hlt]
      rw [hstep]
      exact ⟨hnd, hcons⟩

/-- The dedup dictionary always has distinct, consistent keys. -/
theorem dedup_invariant (l : List Candidate) :
    ((l.foldl dedupStep []).map Prod.fst).Nodup ∧
      ∀ kv ∈ l.foldl dedupStep [], kv.1 = normalize_url kv.2.url := by
  suffices h : ∀ init : List (List Char × Candidate),
      (init.map Prod.fst).Nodup → (∀ kv ∈ init, kv.1 = normalize_url kv.2.url) →
      ((l.foldl dedupStep init).map Prod.fst).Nodup ∧
        ∀ kv ∈ l.foldl dedupStep init, kv.1 = normalize_url kv.2.url by
    exact h [] (by simp) (by simp)
  induction l with
  | nil =>
    intro init h1 h2
    exact ⟨h1, h2⟩
  | cons c cs ih =>
    intro init h1 h2
    rw [List.foldl_cons]
    obtain ⟨h1', h2'⟩ := dedupStep_invariant h1 h2
    exact ih _ h1' h2'

/-- Deduplicated output has pairwise distinct normalized URLs. -/
theorem dedup_norms_nodup (l : List Candidate) :
    ((deduplicate_results l).map fun c => normalize_url c.url).Nodup := by
  obtain ⟨hnd, hcons⟩ := dedup_invariant l
  unfold deduplicate_results
  rw [List.map_map]
  have heq : (l.foldl dedupStep []).map ((fun c => normalize_url c.url) ∘ Prod.snd)
      = (l.foldl dedupStep []).map Prod.fst :=
    List.map_congr_left fun kv hkv => (hcons kv hkv).symm
  rw [heq]
  exact hnd

/-- C5: deduplication is idempotent — applying `deduplicate_results` to
its own output returns the output unchanged (so in particular the same
set of candidates). -/
theorem c5_dedup_idempotent (results : List Candidate) :
    deduplicate_results (deduplicate_results results) = deduplicate_results results := by
  have hnd := dedup_norms_nodup results
  conv_lhs => rw [deduplicate_results]
  rw [foldl_dedupStep_fresh _ [] hnd (by simp), List.nil_append, List.map_map]
  have : (Prod.snd ∘ fun c : Candidate => (normalize_url c.url, c)) = id := rfl
  rw [this, List.map_id]

/-- C10: when two candidates share a normalized URL and have equal scores,
the first-encountered candidate is kept — a later candidate replaces an
earlier one only when its score is strictly greater. -/
theorem c10_tie_keeps_first (a b : Candidate)
    (hn : normalize_url a.url = normalize_url b.url)
    (hs : a.relevance_score = b.relevance_score) :
    deduplicate_results [a, b] = [a] := by
  unfold deduplicate_results
  simp only [List.foldl_cons, List.foldl_nil]
  have h1 : dedupStep [] a = [(normalize_url a.url, a)] := by
    simp [dedupStep]
  rw [h1]
  have h2 : dedupStep [(normalize_url a.url, a)] b = [(normalize_url a.url, a)] := by
    simp only [dedupStep]
    have hfind : List.find? (fun kv => kv.1 == normalize_url b.url)
        [(normalize_url a.url, a)] = some (normalize_url a.url, a) := by
      rw [hn]
      simp
    rw [hfind]
    simp [hs]
  rw [h2]
  rfl

/-- C10 witness: two equal-score candidates differing only by a URL
fragment collapse to the first. -/
theorem c10_witness :
    normalize_url (wkern 3 "a").url = normalize_url (wkern 3 "a#frag").url ∧
    deduplicate_results [wkern 3 "a", wkern 3 "a#frag"] = [wkern 3 "a"] :=
  ⟨by decide,
   c10_tie_keeps_first (wkern 3 "a") (wkern 3 "a#frag") (by decide) (by decide)⟩

/-- Candidates with location `"Unknown"` are transformed independently of
the occurrence count. -/
theorem divTransform_unknown (k k' : ℕ) (c : Candidate) :
    divTransform (strL "Unknown") k c = divTransform (strL "Unknown") k' c := by
  unfold divTransform
  rw [if_pos rfl, if_pos rfl]

/-- Bumping one location's counter increments exactly that lookup. -/
theorem cntLookup_bump (counts : List (List Char × ℕ)) (loc loc' : List Char) :
    cntLookup (cntBump counts loc) loc' =
      cntLookup counts loc' + if loc' = loc then 1 else 0 := by
  cases hf : counts.find? fun kv => kv.1 == loc with
  | none =>
    have hb : cntBump counts loc = counts ++ [(loc, 1)] := by
      unfold cntBump
      rw [hf]
    rw [hb]
    unfold cntLookup
    rw [List.find?_append]
    by_cases hloc : loc' = loc
    · subst hloc
      rw [hf]
      simp
    · have h1 : (List.find? (fun kv => kv.1 == loc') [(loc, 1)]) = none := by
        simp only [List.find?_cons, List.find?_nil]
        have : (((loc, 1) : List Char × ℕ).1 == loc') = false := by
          simp only [beq_eq_false_iff_ne, ne_eq]
          exact fun h => hloc h.symm
        rw [this]
      rw [h1]
      simp [hloc]
  | some kv0 =>
    have hkey : (kv0.1 == loc) = true := by
      have := List.find?_some hf
      simpa using this
    have hb : cntBump counts loc =
        counts.map fun kv => if kv.1 == loc then (kv.1, kv.2 + 1) else kv := by
      unfold cntBump
      rw [hf]
    rw [hb]
    unfold cntLookup
    rw [List.find?_map]
    have hcomp : ((fun kv : List Char × ℕ => kv.1 == loc') ∘
        fun kv : List Char × ℕ => if kv.1 == loc then (kv.1, kv.2 + 1) else kv) =
        fun kv : List Char × ℕ => kv.1 == loc' := by
      funext kv
      simp only [Function.comp_apply]
      split <;> rfl
    rw [hcomp]
    by_cases hloc : loc' = loc
    · subst hloc
      rw [hf]
      simp [Function.comp, hkey]
      rw [if_pos (beq_iff_eq.mp hkey)]
    · cases hf2 : counts.find? fun kv => kv.1 == loc' with
      | none => simp [hloc]
      | some kv1 =>
        have hkey1 : (kv1.1 == loc') = true := by
          have := List.find?_some hf2
          simpa using this
        have hne : (kv1.1 == loc) = false := by
          simp only [beq_eq_false_iff_ne, ne_eq]
          intro h
          exact hloc ((beq_iff_eq.mp hkey1).symm.trans h ▸ rfl)
        simp [hne, hloc]
        rw [if_neg (by simpa using hne)]

/-- The diversity loop transforms the `i`-th candidate with the occurrence
count of its location: the running counter's entry plus the number of
earlier candidates (in processing order) sharing its extracted location. -/
theorem divLoop_get :
    ∀ (l : List Candidate) (counts : List (List Char × ℕ)) (i : ℕ) (c : Candidate),
      l[i]? = some c →
      (divLoop counts l)[i]? = some (divTransform (extract_location c.url c.title)
        (cntLookup counts (extract_location c.url c.title) +
          ((l.take i).filter fun d =>
            extract_location d.url d.title = extract_location c.url c.title).length) c) := by
  intro l
  induction l with
  | nil =>
    intro counts i c h
    simp at h
  | cons hd tl ih =>
    intro counts i c h
    unfold divLoop
    dsimp only
    by_cases hu : extract_location hd.url hd.title = strL "Unknown"
    · rw [if_pos hu]
      cases i with
      | zero =>
        rw [List.getElem?_cons_zero, Option.some_inj] at h
        subst h
        rw [List.getElem?_cons_zero, Option.some_inj, List.take_zero, List.filter_nil,
          List.length_nil, add_zero, hu]
        exact divTransform_unknown 0 _ _
      | succ j =>
        rw [List.getElem?_cons_succ] at h
        rw [List.getElem?_cons_succ, ih counts j c h]
        by_cases hc : extract_location c.url c.title = strL "Unknown"
        · rw [hc]
          exact congrArg some (divTransform_unknown _ _ _)
        · have hne : ¬(extract_location hd.url hd.title = extract_location c.url c.title) := by
            rw [hu]
            exact fun hh => hc hh.symm
          rw [List.take_succ_cons, List.filter_cons_of_neg (by simp [hne])]
    · rw [if_neg hu]
      cases i with
      | zero =>
        rw [List.getElem?_cons_zero, Option.some_inj] at h
        subst h
        rw [List.getElem?_cons_zero, Option.some_inj, List.take_zero, List.filter_nil,
          List.length_nil, add_zero]
      | succ j =>
        rw [List.getElem?_cons_succ] at h
        rw [List.getElem?_cons_succ, ih (cntBump counts (extract_location hd.url hd.title)) j c h]
        rw [cntLookup_bump, List.take_succ_cons]
        by_cases heq : extract_location hd.url hd.title = extract_location c.url c.title
        · rw [List.filter_cons_of_pos (by simp [heq]), if_pos heq.symm]
          simp only [List.length_cons]
          congr 2
          omega
        · rw [List.filter_cons_of_neg (by simp [heq]),
            if_neg (fun hh => heq hh.symm), Nat.add_zero]

/-- C6: in the diversity pass, the `i`-th candidate is transformed with
occurrence index `k` equal to the number of earlier candidates sharing its
location; occurrence index 0 and `"Unknown"` locations are never
penalized; a repeated occurrence subtracts `min(k · 1.5, 4.0)` from the
score, floored at 0; the penalty is monotone in `k` and capped at 4.0. -/
theorem c6_diversity_penalty (results : List Candidate) (i : ℕ) (c : Candidate)
    (h : results[i]? = some c) :
    ((diversityPass results)[i]? = some (divTransform (extract_location c.url c.title)
        (((results.take i).filter fun d =>
            extract_location d.url d.title = extract_location c.url c.title).length) c)) ∧
    (∀ loc : List Char, divTransform loc 0 c = { c with location := some loc }) ∧
    (∀ (loc : List Char) (k : ℕ), loc = strL "Unknown" →
       divTransform loc k c = { c with location := some loc }) ∧
    (∀ (loc : List Char) (k : ℕ), loc ≠ strL "Unknown" → k ≠ 0 →
       divTransform loc k c = { c with
         location := some loc
         relevance_score := max (c.relevance_score - divPenalty k) 0
         score_breakdown := c.score_breakdown ++
           ["-" ++ fmtTenths (divPenalty k) ++ " location #" ++ toString (k + 1)]
         diversity_penalty := some (divPenalty k) }) ∧
    (∀ k : ℕ, divPenalty k ≤ divPenalty (k + 1)) ∧
    (∀ k : ℕ, divPenalty k ≤ 4) := by
  refine ⟨?_, ?_, ?_, ?_, ?_, ?_⟩
  · have hg := divLoop_get results [] i c h
    rw [diversityPass]
    rw [hg]
    congr 2
    show 0 + _ = _
    rw [Nat.zero_add]
  · intro loc
    unfold divTransform
    split
    · rfl
    · rw [if_pos rfl]
  · intro loc k hloc
    unfold divTransform
    rw [if_pos hloc]
  · intro loc k hloc hk
    unfold divTransform
    rw [if_neg hloc, if_neg hk]
  · intro k
    unfold divPenalty
    refine min_le_min ?_ le_rfl
    have : (k : ℚ) ≤ (k + 1 : ℕ) := by exact_mod_cast Nat.le_succ k
    nlinarith
  · intro k
    exact min_le_right _ _

/-- C6 witness: with two same-location candidates, the second is penalized
as occurrence index 1, and all the penalty laws hold at that candidate. -/
theorem c6_witness :
    ((diversityPass [wkern 9 "a", wkern 8 "b"])[1]? =
      some (divTransform (extract_location (wkern 8 "b").url (wkern 8 "b").title)
        ((([wkern 9 "a", wkern 8 "b"].take 1).filter fun d =>
            extract_location d.url d.title =
              extract_location (wkern 8 "b").url (wkern 8 "b").title).length)
        (wkern 8 "b"))) ∧
    (∀ loc : List Char, divTransform loc 0 (wkern 8 "b") =
      { wkern 8 "b" with location := some loc }) ∧
    (∀ (loc : List Char) (k : ℕ), loc = strL "Unknown" →
       divTransform loc k (wkern 8 "b") = { wkern 8 "b" with location := some loc }) ∧
    (∀ (loc : List Char) (k : ℕ), loc ≠ strL "Unknown" → k ≠ 0 →
       divTransform loc k (wkern 8 "b") = { wkern 8 "b" with
         location := some loc
         relevance_score := max ((wkern 8 "b").relevance_score - divPenalty k) 0
         score_breakdown := (wkern 8 "b").score_breakdown ++
           ["-" ++ fmtTenths (divPenalty k) ++ " location #" ++ toString (k + 1)]
         diversity_penalty := some (divPenalty k) }) ∧
    (∀ k : ℕ, divPenalty k ≤ divPenalty (k + 1)) ∧
    (∀ k : ℕ, divPenalty k ≤ 4) :=
  c6_diversity_penalty [wkern 9 "a", wkern 8 "b"] 1 (wkern 8 "b") (by decide)

/-- C8: `rescore_after_analysis` skips every candidate whose content
analysis did not succeed — the candidate (score, breakdown, and all other
fields) passes through the rescoring pass unchanged, with no adjustment
entries appended. -/
theorem c8_rescore_skips_unanalyzed (results : List Candidate) (company product : String)
    (c : Candidate) (hmem : c ∈ results)
    (h : c.content_analysis = none ∨
         ∃ ca, c.content_analysis = some ca ∧ (ca.status ≠ "analyzed" ∨ ca.analysis = none)) :
    rescoreOne c company product = c ∧
      c ∈ rescore_after_analysis results company product := by
  have hone : rescoreOne c company product = c := by
    unfold rescoreOne
    rcases h with hnone | ⟨ca, hca, hbad⟩
    · rw [hnone]
    · rw [hca]
      dsimp only
      by_cases hst : ca.status = "analyzed"
      · rcases hbad with hne | hna
        · exact absurd hst hne
        · rw [if_neg (by simpa using hst), hna]
      · rw [if_pos (by simpa using hst)]
  refine ⟨hone, ?_⟩
  rw [rescore_after_analysis, mem_sortByScoreDesc]
  exact List.mem_map.mpr ⟨c, hmem, hone⟩

/-- C8 witness: a candidate whose analysis failed with status
`"no_text"` is returned unchanged by the rescoring pass. -/
theorem c8_witness :
    rescoreOne { wcand with
        content_analysis := some ⟨"no_text", none⟩ } "Acme Corp" "Widget" =
      { wcand with content_analysis := some ⟨"no_text", none⟩ } ∧
    { wcand with content_analysis := some ⟨"no_text", none⟩ } ∈
      rescore_after_analysis [{ wcand with content_analysis := some ⟨"no_text", none⟩ }]
        "Acme Corp" "Widget" :=
  c8_rescore_skips_unanalyzed _ "Acme Corp" "Widget" _ (by decide)
    (Or.inr ⟨⟨"no_text", none⟩, by decide, Or.inl (by decide)⟩)

namespace ContentAnalyzer

/-- Every price appended by one pattern's extraction loop is at least
100. -/
theorem pricesOfPattern_ge {text : List Char} {pat : RE} {label : String} :
    ∀ p ∈ pricesOfPattern text pat label, 100 ≤ p.amount := by
  intro p hp
  unfold pricesOfPattern at hp
  rw [List.mem_filterMap] at hp
  obtain ⟨gs, _, hbind⟩ := hp
  rcases hg : groupOf gs 1 with _ | g <;> rw [hg] at hbind
  · simp at hbind
  · rw [Option.some_bind] at hbind
    rcases ha : parseAmount g with _ | a <;> rw [ha] at hbind
    · simp at hbind
    · rw [Option.some_bind] at hbind
      split at hbind
      · next h100 =>
        rw [Option.some_inj] at hbind
        subst hbind
        exact h100
      · simp at hbind

/-- Every raw extracted price is at least 100 (the amount filter is
applied as entries are appended). -/
theorem rawPrices_ge (text : List Char) : ∀ p ∈ rawPrices text, 100 ≤ p.amount := by
  unfold rawPrices
  suffices h : ∀ (pats : List (RE × String)) (init : List PriceFound),
      (∀ p ∈ init, 100 ≤ p.amount) →
      ∀ p ∈ pats.foldl (fun acc pl => acc ++ pricesOfPattern text pl.1 pl.2) init,
        100 ≤ p.amount by
    exact h _ [] (by simp)
  intro pats
  induction pats with
  | nil =>
    intro init hinit
    simpa using hinit
  | cons pl pls ih =>
    intro init hinit
    rw [List.foldl_cons]
    refine ih _ ?_
    intro p hp
    rcases List.mem_append.mp hp with hin | hnew
    · exact hinit p hin
    · exact pricesOfPattern_ge p hnew

/-- Membership through stable price insertion. -/
theorem mem_insertPriceDesc {a p : PriceFound} {l : List PriceFound} :
    a ∈ insertPriceDesc p l ↔ a = p ∨ a ∈ l := by
  induction l with
  | nil => simp [insertPriceDesc]
  | cons q qs ih =>
    unfold insertPriceDesc
    split
    · simp [List.mem_cons]
    · simp only [List.mem_cons, ih]
      tauto

/-- Stable insertion preserves descending order of amounts. -/
theorem sorted_insertPriceDesc {p : PriceFound} {l : List PriceFound}
    (h : l.Pairwise fun a b => b.amount ≤ a.amount) :
    (insertPriceDesc p l).Pairwise fun a b => b.amount ≤ a.amount := by
  induction l with
  | nil => simp [insertPriceDesc]
  | cons q qs ih =>
    rw [List.pairwise_cons] at h
    unfold insertPriceDesc
    split
    · next hlt =>
      rw [List.pairwise_cons]
      refine ⟨?_, List.Pairwise.cons h.1 h.2⟩
      intro b hb
      rcases List.mem_cons.mp hb with rfl | hbq
      · exact le_of_lt hlt
      · exact le_trans (h.1 b hbq) (le_of_lt hlt)
    · next hge =>
      rw [List.pairwise_cons]
      refine ⟨?_, ih h.2⟩
      intro b hb
      rcases mem_insertPriceDesc.mp hb with rfl | hbq
      · exact le_of_not_lt hge
      · exact h.1 b hbq

/-- Sorting prices preserves membership. -/
theorem mem_sortPricesDesc {a : PriceFound} {l : List PriceFound} :
    a ∈ sortPricesDesc l ↔ a ∈ l := by
  suffices h : ∀ init, a ∈ l.foldl (fun acc p => insertPriceDesc p acc) init ↔
      a ∈ l ∨ a ∈ init by
    simpa using h []
  induction l with
  | nil => simp
  | cons p ps ih =>
    intro init
    simp only [List.foldl_cons, ih, mem_insertPriceDesc, List.mem_cons]
    tauto

/-- The price sort produces a list descending by amount. -/
theorem sorted_sortPricesDesc (l : List PriceFound) :
    (sortPricesDesc l).Pairwise fun a b => b.amount ≤ a.amount := by
  suffices h : ∀ init, (init.Pairwise fun a b => b.amount ≤ a.amount) →
      ((l.foldl (fun acc p => insertPriceDesc p acc) init).Pairwise
        fun a b => b.amount ≤ a.amount) by
    exact h [] (by simp)
  induction l with
  | nil =>
    intro init hinit
    simpa using hinit
  | cons p ps ih =>
    intro init hinit
    rw [List.foldl_cons]
    exact ih _ (sorted_insertPriceDesc hinit)

/-- Deduplication keeps a sublist. -/
theorem dedupPrices_sublist (seen : List ℚ) (l : List PriceFound) :
    (dedupPrices seen l).Sublist l := by
  induction l generalizing seen with
  | nil => simp [dedupPrices]
  | cons p ps ih =>
    unfold dedupPrices
    split
    · exact (ih seen).trans (List.sublist_cons_self p ps)
    · exact (ih _).cons₂ p

/-- Deduplication yields pairwise-distinct amounts, all fresh for the
`seen` set. -/
theorem dedupPrices_nodup (seen : List ℚ) (l : List PriceFound) :
    ((dedupPrices seen l).map PriceFound.amount).Nodup ∧
      ∀ p ∈ dedupPrices seen l, p.amount ∉ seen := by
  induction l generalizing seen with
  | nil => simp [dedupPrices]
  | cons p ps ih =>
    unfold dedupPrices
    split
    · exact ih seen
    · next hnot =>
      obtain ⟨ihn, ihs⟩ := ih (p.amount :: seen)
      constructor
      · rw [List.map_cons, List.nodup_cons]
        refine ⟨?_, ihn⟩
        intro hmem
        obtain ⟨q, hq, heq⟩ := List.mem_map.mp hmem
        exact ihs q hq (heq ▸ List.mem_cons_self ..)
      · intro q hq
        rcases List.mem_cons.mp hq with rfl | hqs
        · exact hnot
        · exact fun hs => ihs q hqs (List.mem_cons_of_mem _ hs)

end ContentAnalyzer

/-- C7: for every document text, the extracted price list holds only
amounts of at least 100, has pairwise-distinct amounts, is strictly
descending by amount, and has at most 8 entries. -/
theorem c7_prices_found (text : List Char) (company product : String) :
    (∀ p ∈ (ContentAnalyzer.analyze text company product).prices_found, 100 ≤ p.amount) ∧
    ((ContentAnalyzer.analyze text company product).prices_found.map
      PriceFound.amount).Nodup ∧
    ((ContentAnalyzer.analyze text company product).prices_found.Pairwise
      fun a b => b.amount < a.amount) ∧
    (ContentAnalyzer.analyze text company product).prices_found.length ≤ 8 := by
  have hpf : (ContentAnalyzer.analyze text company product).prices_found =
      (ContentAnalyzer.dedupPrices [] (ContentAnalyzer.sortPricesDesc
        (ContentAnalyzer.rawPrices (lowerL text)))).take 8 := rfl
  rw [hpf]
  have hddsub := ContentAnalyzer.dedupPrices_sublist []
    (ContentAnalyzer.sortPricesDesc (ContentAnalyzer.rawPrices (lowerL text)))
  have htakesub := List.take_sublist 8 (ContentAnalyzer.dedupPrices []
    (ContentAnalyzer.sortPricesDesc (ContentAnalyzer.rawPrices (lowerL text))))
  refine ⟨?_, ?_, ?_, List.length_take_le ..⟩
  · intro p hp
    have hmem : p ∈ ContentAnalyzer.sortPricesDesc
        (ContentAnalyzer.rawPrices (lowerL text)) :=
      hddsub.subset (htakesub.subset hp)
    exact ContentAnalyzer.rawPrices_ge (lowerL text) p
      (ContentAnalyzer.mem_sortPricesDesc.mp hmem)
  · exact ((ContentAnalyzer.dedupPrices_nodup [] _).1).sublist
      (htakesub.map PriceFound.amount)
  · have hge := (ContentAnalyzer.sorted_sortPricesDesc
      (ContentAnalyzer.rawPrices (lowerL text))).sublist hddsub
    have hne : (ContentAnalyzer.dedupPrices [] (ContentAnalyzer.sortPricesDesc
        (ContentAnalyzer.rawPrices (lowerL text)))).Pairwise
        fun a b => a.amount ≠ b.amount := by
      have := (ContentAnalyzer.dedupPrices_nodup [] (ContentAnalyzer.sortPricesDesc
        (ContentAnalyzer.rawPrices (lowerL text)))).1
      rw [List.Nodup, List.pairwise_map] at this
      exact this
    refine ((hge.and hne).imp ?_).sublist htakesub
    rintro a b ⟨hle, hneq⟩
    exact lt_of_le_of_ne hle (Ne.symm hneq)

/-- C7 witness: on a concrete document both extracted prices obey the
laws. -/
theorem c7_witness :
    100 ≤ (⟨500, "Annual Fee"⟩ : PriceFound).amount ∧
    (ContentAnalyzer.analyze (strL "annual fee: $500 and total value: $250,000.00")
      "A" "B").prices_found.length ≤ 8 :=
  ⟨(c7_prices_found (strL "annual fee: $500 and total value: $250,000.00") "A" "B").1
      ⟨500, "Annual Fee"⟩ (by decide),
   (c7_prices_found (strL "annual fee: $500 and total value: $250,000.00") "A" "B").2.2.2⟩

/-- Cascade step 1 preserves the location invariant. -/
theorem locStep1_inv {domain : List Char} {p : LocParts} (h : LocInv p) :
    LocInv (locStep1 domain p) := by
  unfold locStep1
  split
  · split
    · obtain ⟨h1, h2, h3, h4⟩ := h
      refine ⟨?_, ?_, ?_, ?_⟩ <;> simp_all
    · exact h
  · exact h

/-- Cascade step 2 preserves the location invariant. -/
theorem locStep2_inv {domain : List Char} {p : LocParts} (h : LocInv p) :
    LocInv (locStep2 domain p) := by
  unfold locStep2
  split
  · exact h
  · split
    · obtain ⟨h1, h2, h3, h4⟩ := h
      refine ⟨?_, ?_, ?_, ?_⟩ <;> simp_all
    · exact h

/-- Cascade step 3 preserves the location invariant. -/
theorem locStep3_inv {domain : List Char} {p : LocParts} (h : LocInv p) :
    LocInv (locStep3 domain p) := by
  unfold locStep3
  split
  · exact h
  · split
    · obtain ⟨h1, h2, h3, h4⟩ := h
      refine ⟨?_, ?_, ?_, ?_⟩ <;> simp_all
    · exact h

/-- Cascade step 4 preserves the location invariant. -/
theorem locStep4_inv {domain : List Char} {p : LocParts} (h : LocInv p) :
    LocInv (locStep4 domain p) := by
  unfold locStep4
  split
  · exact h
  · split
    · obtain ⟨h1, h2, h3, h4⟩ := h
      refine ⟨?_, ?_, ?_, ?_⟩ <;> simp_all
    · exact h

/-- Cascade step 5 preserves the location invariant. -/
theorem locStep5_inv {domain : List Char} {p : LocParts} (h : LocInv p) :
    LocInv (locStep5 domain p) := by
  unfold locStep5
  split
  · exact h
  · split
    · split
      · obtain ⟨h1, h2, h3, h4⟩ := h
        refine ⟨?_, ?_, ?_, ?_⟩ <;> simp_all
      · exact h
    · exact h

/-- The gazetteer step preserves the location invariant. -/
theorem locGazetteer_inv {text : List Char} {p : LocParts} (h : LocInv p) :
    LocInv (locGazetteer text p) := by
  unfold locGazetteer
  split
  · exact h
  · split
    · next city st heq =>
      obtain ⟨h1, h2, h3, h4⟩ := h
      split
      · dsimp only
        split <;> refine ⟨?_, ?_, ?_, ?_⟩ <;> simp_all
      · dsimp only
        split <;> refine ⟨?_, ?_, ?_, ?_⟩ <;> simp_all
    · exact h

/-- The whole cascade establishes the location invariant. -/
theorem locParts_inv (url title : List Char) : LocInv (locParts url title) := by
  unfold locParts
  refine locGazetteer_inv (locStep5_inv (locStep4_inv (locStep3_inv
    (locStep2_inv (locStep1_inv ?_)))))
  refine ⟨?_, ?_, ?_, ?_⟩ <;> simp

/-- C3 counterexample: the URL `https://state.zz.gov/a` extracts to
`"State of ZZ"`, which is not `"State of <FullStateName>"` for any state
in the table — the state-level branch falls back to the raw captured
code when it is not a recognized abbreviation. -/
theorem c3_counterexample :
    extract_location (strL "https://state.zz.gov/a") (strL "") = strL "State of ZZ" ∧
    ((LocationData.states.map fun kv => pyTitle kv.1).all
      fun full => strL "State of ZZ" ≠ strL "State of " ++ full) = true ∧
    LocationData.fullNameOf (strL "ZZ") = none :=
  ⟨by decide, by decide, by decide⟩

/-- C3 (amended): for every URL and title, the extracted location is
produced by exactly one of the composition branches — state level
(`"State of X"`, where `X` is the full state name for a recognized code
and the raw code otherwise), county (`"<County> County, <ST>"`), city
(`"<City>, <ST>"`), or `"Unknown"` — and a city and a county are never
combined in one output; the bare-city and bare-state returns of the
source are unreachable. -/
theorem c3_location_shapes (url title : List Char) :
    ((locParts url title).stateLevel = true ∧
      ∃ ab, (locParts url title).stateAb = some ab ∧
        extract_location url title =
          strL "State of " ++ (LocationData.fullNameOf ab).getD ab) ∨
    ((locParts url title).stateLevel = false ∧
      ∃ cty ab, (locParts url title).county = some cty ∧
        (locParts url title).stateAb = some ab ∧
        extract_location url title = cty ++ strL " County, " ++ ab) ∨
    ((locParts url title).stateLevel = false ∧ (locParts url title).county = none ∧
      ∃ c ab, (locParts url title).city = some c ∧
        (locParts url title).stateAb = some ab ∧
        extract_location url title = c ++ strL ", " ++ ab) ∨
    ((locParts url title).city = none ∧ (locParts url title).county = none ∧
      (locParts url title).stateAb = none ∧
      extract_location url title = strL "Unknown") := by
  obtain ⟨h1, h2, h3, h4⟩ := locParts_inv url title
  have hr : extract_location url title = composeLocation (locParts url title) := rfl
  set p := locParts url title with hp
  rw [hr]
  by_cases hsl : p.stateLevel = true
  · have hs := h3 hsl
    obtain ⟨ab, hab⟩ := Option.isSome_iff_exists.mp hs
    refine Or.inl ⟨hsl, ab, hab, ?_⟩
    unfold composeLocation
    rw [if_pos ⟨by rw [hsl], by rw [hab]; rfl⟩, hab]
    rfl
  · have hslf : p.stateLevel = false := by simpa using hsl
    have hnotif : ¬((p.stateLevel : Prop) ∧ p.stateAb.isSome) := fun hh => hsl hh.1
    cases hcty : p.county with
    | some cty =>
      have hs := h2 (by rw [hcty]; rfl)
      obtain ⟨ab, hab⟩ := Option.isSome_iff_exists.mp hs
      refine Or.inr (Or.inl ⟨hslf, cty, ab, rfl, hab, ?_⟩)
      unfold composeLocation
      rw [if_neg hnotif, hcty, hab]
      cases p.city <;> rfl
    | none =>
      cases hcity : p.city with
      | some c =>
        have hs := h1 (by rw [hcity]; rfl)
        obtain ⟨ab, hab⟩ := Option.isSome_iff_exists.mp hs
        refine Or.inr (Or.inr (Or.inl ⟨hslf, rfl, c, ab, rfl, hab, ?_⟩))
        unfold composeLocation
        rw [if_neg hnotif, hcty, hcity, hab]
      | none =>
        cases hstate : p.stateAb with
        | some ab =>
          exfalso
          rcases h4 (by rw [hstate]; rfl) with hc | hc | hc
          · rw [hcity] at hc
            simp at hc
          · rw [hcty] at hc
            simp at hc
          · exact hsl hc
        | none =>
          refine Or.inr (Or.inr (Or.inr ⟨rfl, rfl, rfl, ?_⟩))
          unfold composeLocation
          rw [if_neg hnotif, hcty, hcity, hstate]
